import Mathlib

/-!
# Verification of the reverse-idl-parser core

A shallow embedding of the `reverse-idl-parser` Rust crate: the schema /
value data model (`src/schema/mod.rs`, `src/value.rs`), the byte-level
decoder (`src/schema/bytes_deserialize.rs`), the schema binary codec
(`src/schema/on_chain_serialization.rs`), the program index operations
(`src/on_chain_idl.rs`), and the IDL compiler (`src/parse_idl.rs`).

Bytes are modelled as `Nat` values (the decoders read them as the Rust
code does; encoders only ever produce values `< 256`).  Fallible Rust
code returning `anyhow::Result` / `std::io::Result` is modelled with
`Except`; a Rust panic (an out-of-bounds index, a failed `assert_eq!`)
is modelled as a distinguished `panicked` outcome so that it can never
be confused with a returned error.

External crate functionality that the core merely calls (SHA-256 from
`solana_program::hash`, base58 rendering of `Pubkey`, Rust's UTF-8
validation and float `Display`) is kept behind an explicit `Ext`
record of functions, so theorems quantify over the boundary instead of
baking in a re-implementation of foreign crates.
-/

set_option maxHeartbeats 1000000

namespace ReverseIdl

/-! ## Little-endian byte helpers -/

/-- Little-endian value of a byte list: `b0 + 256*b1 + ...`. -/
def natFromLeBytes : List Nat → Nat
  | [] => 0
  | b :: bs => b + 256 * natFromLeBytes bs

/-- Little-endian encoding of `n` into exactly `w` bytes (mod 2^(8w)),
as Rust's `to_le_bytes` does. -/
def natToLeBytes : Nat → Nat → List Nat
  | 0, _ => []
  | w + 1, n => n % 256 :: natToLeBytes w (n / 256)

theorem length_natToLeBytes (w n : Nat) : (natToLeBytes w n).length = w := by
  induction w generalizing n with
  | zero => rfl
  | succ w ih => simp [natToLeBytes, ih]

theorem natFromLeBytes_natToLeBytes (w n : Nat) (h : n < 256 ^ w) :
    natFromLeBytes (natToLeBytes w n) = n := by
  induction w generalizing n with
  | zero => simp at h; simp [natToLeBytes, natFromLeBytes, h]
  | succ w ih =>
    have hdiv : n / 256 < 256 ^ w := by
      rw [Nat.div_lt_iff_lt_mul (by norm_num)]
      calc n < 256 ^ (w + 1) := h
        _ = 256 ^ w * 256 := by ring
    simp [natToLeBytes, natFromLeBytes, ih (n / 256) hdiv]
    omega

/-- Two's-complement reading of a `w`-byte little-endian unsigned value. -/
def toSigned (bits raw : Nat) : Int :=
  if raw < 2 ^ (bits - 1) then (raw : Int) else (raw : Int) - 2 ^ bits

/-! ## The external-crate boundary -/

/-- Functions the core calls in external crates / the Rust standard
library: UTF-8 encode (`String::into_bytes`), UTF-8 validation
(`String::from_utf8`, `None` on invalid input), SHA-256
(`solana_program::hash::hash(...).to_bytes()`), base58 rendering of a
32-byte pubkey (`Pubkey::to_string`) and decimal float rendering
(`f32::to_string` / `f64::to_string`, from the raw bit pattern). -/
structure Ext where
  utf8Enc : String → List Nat
  utf8Dec : List Nat → Option String
  hashFn : List Nat → List Nat
  pubkeyToString : List Nat → String
  f32ToString : Nat → String
  f64ToString : Nat → String

/-! ## Schema model (`src/schema/mod.rs`) -/

/-- The `SmallVecLen`: width of a SmallVec length prefix. -/
inductive SmallVecLen where
  | U8
  | U16
deriving DecidableEq, Repr

mutual
/-- The `SchemaType`: the closed recursive tagged union describing a data
shape (`src/schema/mod.rs`). -/
inductive SchemaType where
  | empty
  | pubkey
  | string
  | i8
  | u8
  | i16
  | u16
  | i32
  | u32
  | i64
  | u64
  | i128
  | u128
  | f32
  | f64
  | bool
  | option (inner : SchemaType)
  | array (size : Nat) (inner : SchemaType)
  | tuple (inner : List SchemaType)
  | vec (inner : SchemaType)
  | struct (fields : List SchemaNode)
  | enum (variants : List SchemaNode)
  | smallVec (lenTy : SmallVecLen) (inner : SchemaType)
  | remainingBytes
deriving Repr

/-- The `SchemaNode`: a `SchemaType` wrapped with a name and an `is_hidden`
flag. -/
inductive SchemaNode where
  | mk (name : String) (typ : SchemaType) (isHidden : Bool)
deriving Repr
end

/-- Field accessor matching `SchemaNode.name`. -/
def SchemaNode.name : SchemaNode → String
  | .mk n _ _ => n

/-- Field accessor matching `SchemaNode.typ`. -/
def SchemaNode.typ : SchemaNode → SchemaType
  | .mk _ t _ => t

/-- Field accessor matching `SchemaNode.is_hidden`. -/
def SchemaNode.isHidden : SchemaNode → Bool
  | .mk _ _ h => h

/-- The `SchemaNode::new`: hidden flag defaults to `false`. -/
def SchemaNode.new (name : String) (typ : SchemaType) : SchemaNode :=
  .mk name typ false

/-! ## Value model (`src/value.rs`)

The `src/value.rs` in the snapshot predates the byte decoder: the
decoder (`bytes_deserialize.rs`, visible in `src/`) constructs
`TypedValue::Bytes(..)`, and the crate's own tests pattern-match on it,
but the enum declaration in the snapshot lacks that variant (the
snapshot would not compile).  The `bytes` constructor below is the
declaration required by the visible uses: a raw byte buffer. -/

mutual
/-- The `TypedValue`: decoded instance mirroring `SchemaType`.  Floats
carry their raw little-endian bit pattern (their rendering is behind
`Ext`); pubkeys carry their rendered base58 string as in the source. -/
inductive TypedValue where
  | empty
  | pubkey (s : String)
  | str (s : String)
  | i8 (v : Int)
  | u8 (v : Nat)
  | i16 (v : Int)
  | u16 (v : Nat)
  | i32 (v : Int)
  | u32 (v : Nat)
  | i64 (v : Int)
  | u64 (v : Nat)
  | i128 (v : Int)
  | u128 (v : Nat)
  | f32 (bits : Nat)
  | f64 (bits : Nat)
  | bool (b : Bool)
  | option (v : Option TypedValue)
  | array (vs : List TypedValue)
  | tuple (vs : List TypedValue)
  | enum (v : ValueNode)
  | vec (vs : List TypedValue)
  | struct (fields : List ValueNode)
  | bytes (bs : List Nat)
deriving Repr

/-- The `ValueNode`: a named `TypedValue` (struct field / enum payload). -/
inductive ValueNode where
  | mk (name : String) (value : TypedValue)
deriving Repr
end

/-- Field accessor matching `ValueNode.name`. -/
def ValueNode.name : ValueNode → String
  | .mk n _ => n

/-- Field accessor matching `ValueNode.value`. -/
def ValueNode.value : ValueNode → TypedValue
  | .mk _ v => v

/-! ## Byte decoder (`src/schema/bytes_deserialize.rs`)

`SchemaType::deserialize_bytes` takes `&mut &[u8]` and `show_hidden`,
returning `anyhow::Result<TypedValue>`; we model the cursor by
returning the unconsumed tail.  The recursion is driven by a fuel
parameter so that the definitions compute by kernel reduction; fuel
exhaustion is the distinguished artifact `outOfFuel`, reachable only
when the fuel is smaller than the number of schema nodes visited. -/

/-- Outcome classification for the byte decoder: `err` is a returned
`anyhow::Error` / `std::io::Error`, `panicked` is a Rust panic (e.g.
an out-of-bounds slice index), `outOfFuel` is the embedding artifact. -/
inductive DecodeErr where
  | err (msg : String)
  | panicked (msg : String)
  | outOfFuel
deriving DecidableEq, Repr

/-- Take `n` bytes off the front, as borsh fixed-size reads do; too few
remaining bytes is a returned IO error. -/
def readBytes (n : Nat) (bs : List Nat) :
    Except DecodeErr (List Nat × List Nat) :=
  if n ≤ bs.length then .ok (bs.take n, bs.drop n)
  else .error (.err "failed to fill whole buffer")

/-- Read a `w`-byte little-endian unsigned integer (borsh `uN`). -/
def readUIntLe (w : Nat) (bs : List Nat) : Except DecodeErr (Nat × List Nat) := do
  let (raw, rest) ← readBytes w bs
  .ok (natFromLeBytes raw, rest)

/-- Read a `w`-byte little-endian signed integer (borsh `iN`). -/
def readIntLe (w : Nat) (bs : List Nat) : Except DecodeErr (Int × List Nat) := do
  let (raw, rest) ← readBytes w bs
  .ok (toSigned (8 * w) (natFromLeBytes raw), rest)

/-- Borsh `bool`: one byte, `0 = false`, `1 = true`, anything else is
an invalid-data error. -/
def readBool (bs : List Nat) : Except DecodeErr (Bool × List Nat) := do
  let (raw, rest) ← readUIntLe 1 bs
  match raw with
  | 0 => .ok (false, rest)
  | 1 => .ok (true, rest)
  | _ => .error (.err "Invalid bool representation")

/-- Borsh `f32`: four little-endian bytes; deserialization rejects NaN
bit patterns (exponent all ones, non-zero mantissa). -/
def readF32 (bs : List Nat) : Except DecodeErr (Nat × List Nat) := do
  let (raw, rest) ← readUIntLe 4 bs
  if raw / 2 ^ 23 % 2 ^ 8 == 255 && raw % 2 ^ 23 != 0 then
    .error (.err "For portability reasons we do not allow to deserialize NaNs")
  else .ok (raw, rest)

/-- Borsh `f64`: eight little-endian bytes; rejects NaN bit patterns. -/
def readF64 (bs : List Nat) : Except DecodeErr (Nat × List Nat) := do
  let (raw, rest) ← readUIntLe 8 bs
  if raw / 2 ^ 52 % 2 ^ 11 == 2047 && raw % 2 ^ 52 != 0 then
    .error (.err "For portability reasons we do not allow to deserialize NaNs")
  else .ok (raw, rest)

/-- Borsh `String`: 4-byte little-endian length, then that many bytes
validated as UTF-8 (validation is behind `Ext`). -/
def readString (ext : Ext) (bs : List Nat) :
    Except DecodeErr (String × List Nat) := do
  let (len, rest) ← readUIntLe 4 bs
  let (raw, rest2) ← readBytes len rest
  match ext.utf8Dec raw with
  | some s => .ok (s, rest2)
  | none => .error (.err "invalid utf8")

/-- The `matches!(**t, SchemaType::U8)` test from the Vec / SmallVec
raw-bytes fast path. -/
def isU8 : SchemaType → Bool
  | .u8 => true
  | _ => false

/-- Modelled from the spec: the `RemainingBytes` arm of
`SchemaType::deserialize_bytes` is absent from the `src/` snapshot
(the visible `match` in `bytes_deserialize.rs` is non-exhaustive over
the 24-variant enum and could not compile, so the snapshot of that
file predates the variant).  Per §4.2 of the spec, `RemainingBytes`
"consumes the entire rest of the buffer as a raw-bytes value, with no
length prefix". -/
def deserializeRemainingBytes (bs : List Nat) :
    Except DecodeErr (TypedValue × List Nat) :=
  .ok (.bytes bs, [])

mutual
/-- The `SchemaNode::deserialize_bytes`: decode the type, then drop the
node when it is hidden and hidden output was not requested. -/
def deserializeNodeF (ext : Ext) (sh : Bool) :
    Nat → SchemaNode → List Nat →
    Except DecodeErr (Option ValueNode × List Nat)
  | 0, _, _ => .error .outOfFuel
  | fuel + 1, n, bs => do
    let (v, rest) ← deserializeTypeF ext sh fuel n.typ bs
    if n.isHidden && !sh then .ok (none, rest)
    else .ok (some (.mk n.name v), rest)

/-- The `SchemaType::deserialize_bytes`: the per-variant borsh decoding
rules of `bytes_deserialize.rs`. -/
def deserializeTypeF (ext : Ext) (sh : Bool) :
    Nat → SchemaType → List Nat → Except DecodeErr (TypedValue × List Nat)
  | 0, _, _ => .error .outOfFuel
  | fuel + 1, t, bs =>
    match t with
    | .empty => .ok (.empty, bs)
    | .pubkey => do
      let (raw, rest) ← readBytes 32 bs
      .ok (.pubkey (ext.pubkeyToString raw), rest)
    | .string => do
      let (s, rest) ← readString ext bs
      .ok (.str s, rest)
    | .i8 => do
      let (v, rest) ← readIntLe 1 bs
      .ok (.i8 v, rest)
    | .u8 => do
      let (v, rest) ← readUIntLe 1 bs
      .ok (.u8 v, rest)
    | .i16 => do
      let (v, rest) ← readIntLe 2 bs
      .ok (.i16 v, rest)
    | .u16 => do
      let (v, rest) ← readUIntLe 2 bs
      .ok (.u16 v, rest)
    | .i32 => do
      let (v, rest) ← readIntLe 4 bs
      .ok (.i32 v, rest)
    | .u32 => do
      let (v, rest) ← readUIntLe 4 bs
      .ok (.u32 v, rest)
    | .i64 => do
      let (v, rest) ← readIntLe 8 bs
      .ok (.i64 v, rest)
    | .u64 => do
      let (v, rest) ← readUIntLe 8 bs
      .ok (.u64 v, rest)
    | .i128 => do
      let (v, rest) ← readIntLe 16 bs
      .ok (.i128 v, rest)
    | .u128 => do
      let (v, rest) ← readUIntLe 16 bs
      .ok (.u128 v, rest)
    | .f32 => do
      let (v, rest) ← readF32 bs
      .ok (.f32 v, rest)
    | .f64 => do
      let (v, rest) ← readF64 bs
      .ok (.f64 v, rest)
    | .bool => do
      let (b, rest) ← readBool bs
      .ok (.bool b, rest)
    | .option inner => do
      let (isSome, rest) ← readUIntLe 1 bs
      if isSome == 1 then do
        let (v, rest2) ← deserializeTypeF ext sh fuel inner rest
        .ok (.option (some v), rest2)
      else
        .ok (.option none, rest)
    | .array size inner => do
      let (vs, rest) ← deserializeCountF ext sh fuel inner size bs
      .ok (.array vs, rest)
    | .tuple ts => do
      let (vs, rest) ← deserializeTypesF ext sh fuel ts bs
      .ok (.tuple vs, rest)
    | .vec inner =>
      if isU8 inner then do
        let (size, rest) ← readUIntLe 4 bs
        if size ≤ rest.length then .ok (.bytes (rest.take size), rest.drop size)
        else .error (.err "Not enough bytes for Vec<u8>")
      else do
        let (size, rest) ← readUIntLe 4 bs
        let (vs, rest2) ← deserializeCountF ext sh fuel inner size rest
        .ok (.vec vs, rest2)
    | .struct fields => do
      let (vs, rest) ← deserializeFieldsF ext sh fuel fields bs
      .ok (.struct vs, rest)
    | .enum variants => do
      let (d, rest) ← readUIntLe 1 bs
      if h : d < variants.length then do
        let (v, rest2) ← deserializeNodeF ext sh fuel (variants.get ⟨d, h⟩) rest
        match v with
        | some v => .ok (.enum v, rest2)
        | none => .error (.err "is_hidden should not appear in Enum types")
      else
        .error (.panicked "index out of bounds")
    | .smallVec lenTy inner => do
      let (len, rest) ← match lenTy with
        | SmallVecLen.U8 => readUIntLe 1 bs
        | SmallVecLen.U16 => readUIntLe 2 bs
      if isU8 inner then
        if len ≤ rest.length then .ok (.bytes (rest.take len), rest.drop len)
        else .error (.err "Not enough bytes for SmallVec<u8>")
      else do
        let (vs, rest2) ← deserializeCountF ext sh fuel inner len rest
        .ok (.vec vs, rest2)
    | .remainingBytes => deserializeRemainingBytes bs

/-- The Vec / SmallVec / Array element loop: `count` successive decodes
of the same inner type. -/
def deserializeCountF (ext : Ext) (sh : Bool) :
    Nat → SchemaType → Nat → List Nat →
    Except DecodeErr (List TypedValue × List Nat)
  | 0, _, _, _ => .error .outOfFuel
  | _ + 1, _, 0, bs => .ok ([], bs)
  | fuel + 1, t, count + 1, bs => do
    let (v, rest) ← deserializeTypeF ext sh fuel t bs
    let (vs, rest2) ← deserializeCountF ext sh fuel t count rest
    .ok (v :: vs, rest2)

/-- The Tuple loop: one decode per listed type, in order. -/
def deserializeTypesF (ext : Ext) (sh : Bool) :
    Nat → List SchemaType → List Nat →
    Except DecodeErr (List TypedValue × List Nat)
  | 0, _, _ => .error .outOfFuel
  | _ + 1, [], bs => .ok ([], bs)
  | fuel + 1, t :: ts, bs => do
    let (v, rest) ← deserializeTypeF ext sh fuel t bs
    let (vs, rest2) ← deserializeTypesF ext sh fuel ts rest
    .ok (v :: vs, rest2)

/-- The Struct loop: decode each field node in declared order,
omitting fields whose node decodes to `None` (hidden, not shown). -/
def deserializeFieldsF (ext : Ext) (sh : Bool) :
    Nat → List SchemaNode → List Nat →
    Except DecodeErr (List ValueNode × List Nat)
  | 0, _, _ => .error .outOfFuel
  | _ + 1, [], bs => .ok ([], bs)
  | fuel + 1, f :: fs, bs => do
    let (v, rest) ← deserializeNodeF ext sh fuel f bs
    let (vs, rest2) ← deserializeFieldsF ext sh fuel fs rest
    match v with
    | some v => .ok (v :: vs, rest2)
    | none => .ok (vs, rest2)
end

/-! ## Structural equality (Rust `#[derive(PartialEq)]`)

The compiler's post-build self-check (`validate_on_chain_idl`) executes
`assert_eq!` on `OnChainIdl` values, so the derived structural equality
is itself part of the embedded code. -/

/-- Derived `PartialEq` for `SmallVecLen`. -/
def beqSmallVecLen : SmallVecLen → SmallVecLen → Bool
  | .U8, .U8 => true
  | .U16, .U16 => true
  | _, _ => false

mutual
/-- Derived `PartialEq` for `SchemaType`. -/
def beqSchemaType (x y : SchemaType) : Bool :=
  match x, y with
  | .empty, .empty => true
  | .pubkey, .pubkey => true
  | .string, .string => true
  | .i8, .i8 => true
  | .u8, .u8 => true
  | .i16, .i16 => true
  | .u16, .u16 => true
  | .i32, .i32 => true
  | .u32, .u32 => true
  | .i64, .i64 => true
  | .u64, .u64 => true
  | .i128, .i128 => true
  | .u128, .u128 => true
  | .f32, .f32 => true
  | .f64, .f64 => true
  | .bool, .bool => true
  | .option a, .option b => beqSchemaType a b
  | .array n a, .array m b => n == m && beqSchemaType a b
  | .tuple a, .tuple b => beqSchemaTypeList a b
  | .vec a, .vec b => beqSchemaType a b
  | .struct a, .struct b => beqSchemaNodeList a b
  | .enum a, .enum b => beqSchemaNodeList a b
  | .smallVec la a, .smallVec lb b => beqSmallVecLen la lb && beqSchemaType a b
  | .remainingBytes, .remainingBytes => true
  | _, _ => false
termination_by structural x

/-- Derived `PartialEq` for `SchemaNode`. -/
def beqSchemaNode (x y : SchemaNode) : Bool :=
  match x, y with
  | .mk n1 t1 h1, .mk n2 t2 h2 => n1 == n2 && beqSchemaType t1 t2 && h1 == h2
termination_by structural x

/-- Elementwise `PartialEq` on `Vec<SchemaType>`. -/
def beqSchemaTypeList (x y : List SchemaType) : Bool :=
  match x, y with
  | [], [] => true
  | a :: as, b :: bs => beqSchemaType a b && beqSchemaTypeList as bs
  | _, _ => false
termination_by structural x

/-- Elementwise `PartialEq` on `Vec<SchemaNode>`. -/
def beqSchemaNodeList (x y : List SchemaNode) : Bool :=
  match x, y with
  | [], [] => true
  | a :: as, b :: bs => beqSchemaNode a b && beqSchemaNodeList as bs
  | _, _ => false
termination_by structural x
end

/-! ## Schema binary codec (`src/schema/on_chain_serialization.rs`)

`BorshSerialize for SchemaType` writes a 2-byte little-endian tag and a
variant-specific payload; `BorshDeserialize` reads the tag back.  In
the snapshot the `serialize` tag `match` covers only the 23 variants up
to `SmallVec` — `RemainingBytes` (the 24th variant of the enum in
`mod.rs`) has no arm, so the visible file is a non-compiling partial
snapshot; its tag is modelled from the spec below. -/

/-- Modelled from the spec: the 2-byte tag of `RemainingBytes` is
missing from the `src/` snapshot of `on_chain_serialization.rs` (the
`serialize` match there is non-exhaustive and could not compile).  §4.3
requires every `SchemaType` variant to carry its own fixed small
2-byte tag, never reusing one; the smallest unused tag after
`SmallVec = 22` is `23`. -/
def remainingBytesTag : Nat := 23

/-- The per-variant 2-byte tag of `BorshSerialize for SchemaType`
(tags 0–22 from the source; `RemainingBytes` via `remainingBytesTag`). -/
def schemaTypeTag : SchemaType → Nat
  | .empty => 0
  | .pubkey => 1
  | .string => 2
  | .i8 => 3
  | .u8 => 4
  | .i16 => 5
  | .u16 => 6
  | .i32 => 7
  | .u32 => 8
  | .i64 => 9
  | .u64 => 10
  | .i128 => 11
  | .u128 => 12
  | .f32 => 13
  | .f64 => 14
  | .bool => 15
  | .option _ => 16
  | .array _ _ => 17
  | .tuple _ => 18
  | .vec _ => 19
  | .struct _ => 20
  | .enum _ => 21
  | .smallVec _ _ => 22
  | .remainingBytes => remainingBytesTag

/-- Derived borsh encoding of `SmallVecLen` (1-byte variant index). -/
def encodeSmallVecLen : SmallVecLen → List Nat
  | .U8 => [0]
  | .U16 => [1]

/-- Borsh encoding of a Rust `String`: 4-byte little-endian length then
the UTF-8 bytes. -/
def encodeString (ext : Ext) (s : String) : List Nat :=
  natToLeBytes 4 (ext.utf8Enc s).length ++ ext.utf8Enc s

mutual
/-- The `BorshSerialize for SchemaType::serialize`: 2-byte little-endian
tag, then the variant payload (`usize` lengths are 8-byte
little-endian, as borsh serializes `usize` as `u64`). -/
def encodeSchemaType (ext : Ext) : SchemaType → List Nat
  | .option t => natToLeBytes 2 16 ++ encodeSchemaType ext t
  | .array n t => natToLeBytes 2 17 ++ natToLeBytes 8 n ++ encodeSchemaType ext t
  | .tuple ts =>
    natToLeBytes 2 18 ++ natToLeBytes 8 ts.length ++ encodeSchemaTypeList ext ts
  | .vec t => natToLeBytes 2 19 ++ encodeSchemaType ext t
  | .struct ns =>
    natToLeBytes 2 20 ++ natToLeBytes 8 ns.length ++ encodeSchemaNodeList ext ns
  | .enum ns =>
    natToLeBytes 2 21 ++ natToLeBytes 8 ns.length ++ encodeSchemaNodeList ext ns
  | .smallVec lt t =>
    natToLeBytes 2 22 ++ encodeSmallVecLen lt ++ encodeSchemaType ext t
  | t => natToLeBytes 2 (schemaTypeTag t)

/-- Derived `BorshSerialize for SchemaNode`: name, type, hidden flag. -/
def encodeSchemaNode (ext : Ext) : SchemaNode → List Nat
  | .mk name t hidden =>
    encodeString ext name ++ encodeSchemaType ext t ++ [if hidden then 1 else 0]

/-- Sequential encoding of a list of types (Tuple payload loop). -/
def encodeSchemaTypeList (ext : Ext) : List SchemaType → List Nat
  | [] => []
  | t :: ts => encodeSchemaType ext t ++ encodeSchemaTypeList ext ts

/-- Sequential encoding of a list of nodes (Struct/Enum payload loop). -/
def encodeSchemaNodeList (ext : Ext) : List SchemaNode → List Nat
  | [] => []
  | n :: ns => encodeSchemaNode ext n ++ encodeSchemaNodeList ext ns
end

/-- Derived borsh decoding of `SmallVecLen`: 1-byte variant index,
unknown indices are an error. -/
def readSmallVecLen (bs : List Nat) :
    Except DecodeErr (SmallVecLen × List Nat) := do
  let (raw, rest) ← readUIntLe 1 bs
  match raw with
  | 0 => .ok (SmallVecLen.U8, rest)
  | 1 => .ok (SmallVecLen.U16, rest)
  | _ => .error (.err "Unexpected variant tag")

mutual
/-- The `BorshDeserialize for SchemaType::deserialize_reader`: read the
2-byte tag, dispatch; an unrecognized tag is an `InvalidData` error.
Tag `23` is the spec-modelled `RemainingBytes` tag (see
`remainingBytesTag`). -/
def deserializeSchemaTypeF (ext : Ext) :
    Nat → List Nat → Except DecodeErr (SchemaType × List Nat)
  | 0, _ => .error .outOfFuel
  | fuel + 1, bs => do
    let (tag, rest) ← readUIntLe 2 bs
    match tag with
    | 0 => .ok (.empty, rest)
    | 1 => .ok (.pubkey, rest)
    | 2 => .ok (.string, rest)
    | 3 => .ok (.i8, rest)
    | 4 => .ok (.u8, rest)
    | 5 => .ok (.i16, rest)
    | 6 => .ok (.u16, rest)
    | 7 => .ok (.i32, rest)
    | 8 => .ok (.u32, rest)
    | 9 => .ok (.i64, rest)
    | 10 => .ok (.u64, rest)
    | 11 => .ok (.i128, rest)
    | 12 => .ok (.u128, rest)
    | 13 => .ok (.f32, rest)
    | 14 => .ok (.f64, rest)
    | 15 => .ok (.bool, rest)
    | 16 => do
      let (t, r) ← deserializeSchemaTypeF ext fuel rest
      .ok (.option t, r)
    | 17 => do
      let (n, r) ← readUIntLe 8 rest
      let (t, r2) ← deserializeSchemaTypeF ext fuel r
      .ok (.array n t, r2)
    | 18 => do
      let (n, r) ← readUIntLe 8 rest
      let (ts, r2) ← deserializeSchemaTypeListF ext fuel n r
      .ok (.tuple ts, r2)
    | 19 => do
      let (t, r) ← deserializeSchemaTypeF ext fuel rest
      .ok (.vec t, r)
    | 20 => do
      let (n, r) ← readUIntLe 8 rest
      let (ns, r2) ← deserializeSchemaNodeListF ext fuel n r
      .ok (.struct ns, r2)
    | 21 => do
      let (n, r) ← readUIntLe 8 rest
      let (ns, r2) ← deserializeSchemaNodeListF ext fuel n r
      .ok (.enum ns, r2)
    | 22 => do
      let (lt, r) ← readSmallVecLen rest
      let (t, r2) ← deserializeSchemaTypeF ext fuel r
      .ok (.smallVec lt t, r2)
    | 23 => .ok (.remainingBytes, rest)
    | _ => .error (.err "Invalid tag")

/-- Derived `BorshDeserialize for SchemaNode`: name, type, flag. -/
def deserializeSchemaNodeF (ext : Ext) :
    Nat → List Nat → Except DecodeErr (SchemaNode × List Nat)
  | 0, _ => .error .outOfFuel
  | fuel + 1, bs => do
    let (name, r) ← readString ext bs
    let (t, r2) ← deserializeSchemaTypeF ext fuel r
    let (hidden, r3) ← readBool r2
    .ok (.mk name t hidden, r3)

/-- The `for _ in 0..len` loop of the Tuple arm. -/
def deserializeSchemaTypeListF (ext : Ext) :
    Nat → Nat → List Nat → Except DecodeErr (List SchemaType × List Nat)
  | 0, _, _ => .error .outOfFuel
  | _ + 1, 0, bs => .ok ([], bs)
  | fuel + 1, n + 1, bs => do
    let (t, r) ← deserializeSchemaTypeF ext fuel bs
    let (ts, r2) ← deserializeSchemaTypeListF ext fuel n r
    .ok (t :: ts, r2)

/-- The `for _ in 0..len` loop of the Struct/Enum arms. -/
def deserializeSchemaNodeListF (ext : Ext) :
    Nat → Nat → List Nat → Except DecodeErr (List SchemaNode × List Nat)
  | 0, _, _ => .error .outOfFuel
  | _ + 1, 0, bs => .ok ([], bs)
  | fuel + 1, n + 1, bs => do
    let (n', r) ← deserializeSchemaNodeF ext fuel bs
    let (ns, r2) ← deserializeSchemaNodeListF ext fuel n r
    .ok (n' :: ns, r2)
end

/-! ## Program index (`src/on_chain_idl.rs`): data and borsh codec -/

/-- The `InstructionDecoder`: declared account-role names plus the argument
schema. -/
structure InstructionDecoder where
  accounts : List String
  instructionArgsParser : SchemaNode
deriving Repr

/-- The `OnChainIdl`: the program index. -/
structure OnChainIdl where
  programName : String
  accountDiscLen : Nat
  instructionDiscLen : Nat
  accounts : List (Nat × SchemaNode)
  instructionParams : List (Nat × InstructionDecoder)
deriving Repr

/-- Derived `PartialEq` for `InstructionDecoder`. -/
def beqInstructionDecoder (a b : InstructionDecoder) : Bool :=
  a.accounts == b.accounts && beqSchemaNode a.instructionArgsParser b.instructionArgsParser

/-- Derived `PartialEq` for `OnChainIdl`. -/
def beqOnChainIdl (a b : OnChainIdl) : Bool :=
  a.programName == b.programName &&
  a.accountDiscLen == b.accountDiscLen &&
  a.instructionDiscLen == b.instructionDiscLen &&
  a.accounts.length == b.accounts.length &&
  (a.accounts.zip b.accounts).all
    (fun p => p.1.1 == p.2.1 && beqSchemaNode p.1.2 p.2.2) &&
  a.instructionParams.length == b.instructionParams.length &&
  (a.instructionParams.zip b.instructionParams).all
    (fun p => p.1.1 == p.2.1 && beqInstructionDecoder p.1.2 p.2.2)

/-- Borsh `Vec<T>` encoding: 4-byte little-endian count then elements. -/
def encodeVecBy {α : Type} (enc : α → List Nat) (xs : List α) : List Nat :=
  natToLeBytes 4 xs.length ++ (xs.map enc).flatten

/-- Derived `BorshSerialize for InstructionDecoder`. -/
def encodeInstructionDecoder (ext : Ext) (d : InstructionDecoder) : List Nat :=
  encodeVecBy (encodeString ext) d.accounts ++ encodeSchemaNode ext d.instructionArgsParser

/-- Derived `BorshSerialize for OnChainIdl` (`try_to_vec`). -/
def encodeOnChainIdl (ext : Ext) (idl : OnChainIdl) : List Nat :=
  encodeString ext idl.programName ++
  natToLeBytes 1 idl.accountDiscLen ++
  natToLeBytes 1 idl.instructionDiscLen ++
  encodeVecBy (fun p => natToLeBytes 8 p.1 ++ encodeSchemaNode ext p.2) idl.accounts ++
  encodeVecBy (fun p => natToLeBytes 8 p.1 ++ encodeInstructionDecoder ext p.2)
    idl.instructionParams

/-- Borsh `Vec<T>` decoding loop, given an element decoder. -/
def readVecByF {α : Type} (dec : List Nat → Except DecodeErr (α × List Nat)) :
    Nat → List Nat → Except DecodeErr (List α × List Nat)
  | 0, bs => .ok ([], bs)
  | n + 1, bs => do
    let (x, r) ← dec bs
    let (xs, r2) ← readVecByF dec n r
    .ok (x :: xs, r2)

/-- Derived `BorshDeserialize for InstructionDecoder`; the schema-type
fuel is threaded in for the nested `SchemaNode`. -/
def deserializeInstructionDecoderF (ext : Ext) (fuel : Nat) (bs : List Nat) :
    Except DecodeErr (InstructionDecoder × List Nat) := do
  let (n, r) ← readUIntLe 4 bs
  let (names, r2) ← readVecByF (readString ext) n r
  let (node, r3) ← deserializeSchemaNodeF ext fuel r2
  .ok (⟨names, node⟩, r3)

/-- Derived `BorshDeserialize for OnChainIdl`. -/
def deserializeOnChainIdlF (ext : Ext) (fuel : Nat) (bs : List Nat) :
    Except DecodeErr (OnChainIdl × List Nat) := do
  let (pname, r) ← readString ext bs
  let (alen, r2) ← readUIntLe 1 r
  let (ilen, r3) ← readUIntLe 1 r2
  let (na, r4) ← readUIntLe 4 r3
  let (accs, r5) ← readVecByF
    (fun b => do
      let (k, rr) ← readUIntLe 8 b
      let (node, rr2) ← deserializeSchemaNodeF ext fuel rr
      .ok ((k, node), rr2)) na r4
  let (ni, r6) ← readUIntLe 4 r5
  let (ins, r7) ← readVecByF
    (fun b => do
      let (k, rr) ← readUIntLe 8 b
      let (d, rr2) ← deserializeInstructionDecoderF ext fuel rr
      .ok ((k, d), rr2)) ni r6
  .ok (⟨pname, alen, ilen, accs, ins⟩, r7)

/-- The `validate_on_chain_idl`: serialize, reparse with `try_from_slice`
(which demands full consumption), and `assert_eq!` the round trip; an
`assert_eq!` failure is a panic, not a returned error. -/
def validateOnChainIdl (ext : Ext) (idl : OnChainIdl) : Except DecodeErr Unit :=
  let ser := encodeOnChainIdl ext idl
  match deserializeOnChainIdlF ext (ser.length + 1) ser with
  | .error e => .error e
  | .ok (idl2, rest) =>
    if rest.isEmpty then
      if beqOnChainIdl idl2 idl then .ok ()
      else .error (.panicked "assertion failed: deserialized == *on_chain_idl")
    else .error (.err "Not all bytes read")

/-! ## Program index decode-account (`OnChainIdl::get_parsed_account`) -/

/-- The `ParsedAccountResult`: account name, schema, decoded value. -/
structure ParsedAccountResult where
  name : String
  schema : SchemaType
  value : TypedValue
deriving Repr

/-- The `OnChainIdl::get_account_discriminator`: zero-pad the first
`min(account_disc_len, 8)` bytes to 8 bytes and read little-endian;
numerically that is the little-endian value of that prefix.  (Its
`copy_from_slice` precondition — at least that many bytes present — is
established by the length check at its call site.) -/
def getAccountDiscriminator (idl : OnChainIdl) (accountData : List Nat) : Nat :=
  natFromLeBytes (accountData.take (min idl.accountDiscLen 8))

/-- The `OnChainIdl::get_parsed_account`: length check, discriminator
lookup, then decode of the bytes after the discriminator prefix. -/
def getParsedAccount (ext : Ext) (fuel : Nat) (idl : OnChainIdl)
    (accountData : List Nat) (showHidden : Bool) :
    Except DecodeErr ParsedAccountResult :=
  if accountData.length < idl.accountDiscLen then
    .error (.err "Account data is too short")
  else
    let disc := getAccountDiscriminator idl accountData
    match idl.accounts.find? (fun p => p.1 == disc) with
    | none => .error (.err "Account discriminant not found")
    | some (_, schema) =>
      match deserializeNodeF ext showHidden fuel schema
          (accountData.drop idl.accountDiscLen) with
      | .error e => .error e
      | .ok (none, _) => .error (.err "Account type should not be hidden")
      | .ok (some v, _) => .ok ⟨schema.name, schema.typ, v.value⟩

/-! ## JSON values (`serde_json::Value`) and the rendering contract -/

/-- A JSON document tree, used both for the input IDL document and for
the rendered output (`serde_json::Value`).  Numbers are integers here:
every number the embedded code reads or writes is integral. -/
inductive Json where
  | null
  | bool (b : Bool)
  | num (n : Int)
  | str (s : String)
  | arr (xs : List Json)
  | obj (fields : List (String × Json))
deriving Repr

/-- The `Value::as_object` (fields of the object). -/
def Json.asObj? : Json → Option (List (String × Json))
  | .obj fs => some fs
  | _ => none

/-- The `Value::as_array`. -/
def Json.asArr? : Json → Option (List Json)
  | .arr xs => some xs
  | _ => none

/-- The `Value::as_str`. -/
def Json.asStr? : Json → Option String
  | .str s => some s
  | _ => none

/-- The `Value::as_u64`: only a non-negative integral number. -/
def Json.asU64? : Json → Option Nat
  | .num n => if 0 ≤ n then some n.toNat else none
  | _ => none

/-- The `Value::is_object`. -/
def Json.isObj : Json → Bool
  | .obj _ => true
  | _ => false

/-- The `Map::get` on a JSON object's fields (keys are unique in a
`serde_json::Map`; first match). -/
def jGet (fields : List (String × Json)) (k : String) : Option Json :=
  (fields.find? (fun p => p.1 == k)).map (·.2)

mutual
/-- The `Serialize for TypedValue` (`src/value.rs`): the JSON rendering
contract.  64/128-bit integers and floats render as decimal strings;
an `Enum` with an `Empty` payload renders as the bare variant name,
otherwise the boxed `ValueNode` itself is serialized (producing a
`{name, value}` object via `ValueNode`'s derived `Serialize`).  The
snapshot's impl predates the `Bytes` variant; raw bytes are rendered
as a JSON array of numbers here — no claim depends on that arm. -/
def renderTypedValue (ext : Ext) : TypedValue → Json
  | .empty => .str ""
  | .pubkey v => .str v
  | .str v => .str v
  | .i8 v => .num v
  | .u8 v => .num v
  | .i16 v => .num v
  | .u16 v => .num v
  | .i32 v => .num v
  | .u32 v => .num v
  | .i64 v => .str (toString v)
  | .u64 v => .str (toString v)
  | .i128 v => .str (toString v)
  | .u128 v => .str (toString v)
  | .f32 bits => .str (ext.f32ToString bits)
  | .f64 bits => .str (ext.f64ToString bits)
  | .bool b => .bool b
  | .option v =>
    match v with
    | none => .null
    | some x => renderTypedValue ext x
  | .array vs => .arr (renderTypedValueList ext vs)
  | .tuple vs => .arr (renderTypedValueList ext vs)
  | .enum v =>
    match v with
    | .mk n val =>
      match val with
      | .empty => .str n
      | _ => renderValueNode ext (.mk n val)
  | .vec vs => .arr (renderTypedValueList ext vs)
  | .struct fields => .obj (renderValueNodeFields ext fields)
  | .bytes bs => .arr (bs.map (fun b => .num b))

/-- Derived `Serialize for ValueNode`: a `{"name": .., "value": ..}`
object. -/
def renderValueNode (ext : Ext) : ValueNode → Json
  | .mk n v => .obj [("name", .str n), ("value", renderTypedValue ext v)]

/-- Element loop for Array/Tuple/Vec rendering. -/
def renderTypedValueList (ext : Ext) : List TypedValue → List Json
  | [] => []
  | v :: vs => renderTypedValue ext v :: renderTypedValueList ext vs

/-- Field loop for Struct rendering (`serialize_map` keyed by field
name in declared order). -/
def renderValueNodeFields (ext : Ext) : List ValueNode → List (String × Json)
  | [] => []
  | .mk n v :: fs => (n, renderTypedValue ext v) :: renderValueNodeFields ext fs
end

/-! ## `camel_to_snake_case` (`src/parse_idl.rs`) and implicit
discriminators

Rust's `char::is_uppercase` / `is_lowercase` are Unicode classifiers;
the embedding uses the ASCII classifiers (`Char.isUpper` etc.), which
agree with them on ASCII identifiers — every name the spec and the
crate's tests exercise. -/

/-- The peeked condition `chars.peek().is_some_and(|next|
next.is_lowercase() || next.is_ascii_digit())`, on the unconsumed
tail. -/
def peekLowerOrDigit : List Char → Bool
  | [] => false
  | n :: _ => n.isLower || n.isDigit

/-- The `while let Some(c) = chars.next()` loop of
`camel_to_snake_case`, with the accumulated `result` made explicit;
the underscore is only pushed when `result` is non-empty. -/
def camelToSnakeGo (acc : List Char) : List Char → List Char
  | [] => acc
  | c :: cs =>
    if c.isUpper then
      if !acc.isEmpty && peekLowerOrDigit cs then
        camelToSnakeGo (acc ++ ['_', c.toLower]) cs
      else
        camelToSnakeGo (acc ++ [c.toLower]) cs
    else
      camelToSnakeGo (acc ++ [c]) cs

/-- The `camel_to_snake_case`. -/
def camelToSnakeCase (s : String) : String :=
  ⟨camelToSnakeGo [] s.data⟩

/-- The spec's description of the case conversion, written directly
from its words: "inserts an underscore before an uppercase letter that
is followed by a lowercase letter or digit and is not at the start of
the string, then lowercases every letter".  Used to compare against
`camelToSnakeCase`; `first` tracks "at the start of the string". -/
def snakeCaseSpecGo (first : Bool) : List Char → List Char
  | [] => []
  | c :: cs =>
    (if c.isUpper && !first && peekLowerOrDigit cs then ['_'] else []) ++
      [c.toLower] ++ snakeCaseSpecGo false cs

/-- The spec-described snake-case function on strings. -/
def snakeCaseSpec (s : String) : String :=
  ⟨snakeCaseSpecGo true s.data⟩

/-- The `parse_implicit_discriminant`: little-endian `u64` from the first
8 bytes of `hash("account:" + name)`, with byte-width 8.  The `[..8]`
slice of the hash would panic if the hash had fewer than 8 bytes
(`solana_program`'s SHA-256 always returns 32). -/
def parseImplicitDiscriminant (ext : Ext) (accountName : String) :
    Except DecodeErr (Nat × Nat) :=
  let seeds := ext.utf8Enc ("account:" ++ accountName)
  let h := ext.hashFn seeds
  if 8 ≤ h.length then .ok (natFromLeBytes (h.take 8), 8)
  else .error (.panicked "range end index 8 out of range")

/-- The `parse_implicit_instruction_discriminant`: same, hashing
`"global:" + camel_to_snake_case(name)`. -/
def parseImplicitInstructionDiscriminant (ext : Ext) (instructionName : String) :
    Except DecodeErr (Nat × Nat) :=
  let seeds := ext.utf8Enc ("global:" ++ camelToSnakeCase instructionName)
  let h := ext.hashFn seeds
  if 8 ≤ h.length then .ok (natFromLeBytes (h.take 8), 8)
  else .error (.panicked "range end index 8 out of range")

/-! ## IDL compiler (`src/parse_idl.rs`)

`HashMap` / `HashSet` are modelled as association lists / duplicate-free
lists with the same content semantics (`insert` overwrites, `entry
().or_insert` keeps the first binding); no embedded claim depends on
iteration order.  The `RefCell<HashMap<..>>` resolution cache is
modelled by threading a `PState` through the single-threaded compile
pass.  The `defined`-reference recursion is fuel-driven: the source
recurses without a cycle guard (spec §9), and `outOfFuel` is the
embedding's stand-in for non-termination, propagated — never swallowed
— so it can never be mistaken for the source's skip-on-error path. -/

/-- The `HashMap::get` (string keys, first match — keys are unique). -/
def alistGet {α : Type} (m : List (String × α)) (k : String) : Option α :=
  (m.find? (fun p => p.1 == k)).map (·.2)

/-- The `HashMap::insert`: overwrite the binding, keeping keys unique. -/
def alistInsert {α : Type} : List (String × α) → String → α → List (String × α)
  | [], k, v => [(k, v)]
  | (k', v') :: rest, k, v =>
    if k' == k then (k, v) :: rest else (k', v') :: alistInsert rest k v

/-- The `HashMap::entry(k).or_insert_with(v)`: keep an existing binding. -/
def alistInsertIfAbsent {α : Type} (m : List (String × α)) (k : String) (v : α) :
    List (String × α) :=
  if (alistGet m k).isSome then m else m ++ [(k, v)]

/-- The `HashMap::get` for `u64` keys. -/
def nmapGet {α : Type} (m : List (Nat × α)) (k : Nat) : Option α :=
  (m.find? (fun p => p.1 == k)).map (·.2)

/-- The `HashMap::insert` for `u64` keys: overwrite. -/
def nmapInsert {α : Type} : List (Nat × α) → Nat → α → List (Nat × α)
  | [], k, v => [(k, v)]
  | (k', v') :: rest, k, v =>
    if k' == k then (k, v) :: rest else (k', v') :: nmapInsert rest k v

/-- The `HashSet<u64>::insert`. -/
def setInsert (s : List Nat) (k : Nat) : List Nat :=
  if s.contains k then s else s ++ [k]

/-- Is the first list a prefix of the second (structurally, so it
computes by kernel reduction). -/
def listIsPfx : List Char → List Char → Bool
  | [], _ => true
  | _ :: _, [] => false
  | a :: as, b :: bs => a == b && listIsPfx as bs

/-- The `str::strip_prefix`. -/
def dropPfx (s p : String) : Option String :=
  if listIsPfx p.data s.data then some ⟨s.data.drop p.data.length⟩ else none

/-- The `str::strip_suffix`. -/
def dropSfx (s p : String) : Option String :=
  if listIsPfx p.data.reverse s.data.reverse then
    some ⟨s.data.take (s.data.length - p.data.length)⟩
  else none

/-- The `str::eq_ignore_ascii_case`. -/
def eqIgnoreAsciiCase (a b : String) : Bool :=
  a.data.map Char.toLower == b.data.map Char.toLower

/-- The `char::is_whitespace` on the ASCII whitespace the inputs use. -/
def isWsChar (c : Char) : Bool :=
  c == ' ' || c == '\t' || c == '\n' || c == '\r'

/-- The `str::trim`. -/
def trimStr (s : String) : String :=
  ⟨((s.data.dropWhile isWsChar).reverse.dropWhile isWsChar).reverse⟩

/-- The `str::split` on a single character (always at least one piece). -/
def splitCharGo (c : Char) (cur : List Char) : List Char → List String
  | [] => [⟨cur.reverse⟩]
  | x :: xs =>
    if x == c then ⟨cur.reverse⟩ :: splitCharGo c [] xs
    else splitCharGo c (x :: cur) xs

/-- The `str::split` on a character. -/
def splitChar (c : Char) (s : String) : List String :=
  splitCharGo c [] s.data

/-- The `usize::from_str` restricted to plain digit strings (every length
the embedded inputs use). -/
def parseNatDec (s : String) : Option Nat :=
  if s.data.isEmpty || !(s.data.all Char.isDigit) then none
  else some (s.data.foldl (fun acc c => acc * 10 + (c.toNat - 48)) 0)

/-- The name→raw-type-definition table (`HashMap<String, Map<String,
Value>>`): each entry holds the JSON object's fields. -/
abbrev TMap := List (String × List (String × Json))

/-- The `IdlParser` state: the type table plus the `parsed_cache`. -/
structure PState where
  tm : TMap
  cache : List (String × SchemaNode)

/-- The `parse_types`: a missing or non-array `types` key is the error
"Types is not an array"; each entry needs an object shape and a string
`name`, and is inserted (overwriting) under that name. -/
def parseTypesGo : TMap → List Json → Except DecodeErr TMap
  | acc, [] => .ok acc
  | acc, raw :: rest => do
    let tm ← match raw.asObj? with
      | some o => .ok o
      | none => .error (.err "Type map is not an object")
    let name ← match (jGet tm "name").bind Json.asStr? with
      | some s => .ok s
      | none => .error (.err "Type name is not a string")
    parseTypesGo (alistInsert acc name tm) rest

/-- The `parse_types` over the document root. -/
def parseTypes (root : List (String × Json)) : Except DecodeErr TMap :=
  match (jGet root "types").bind Json.asArr? with
  | none => .error (.err "Types is not an array")
  | some typeList => parseTypesGo [] typeList

/-- The loop body of `parse_accounts`: merge legacy inline account
layouts into the type table without overwriting. -/
def parseAccountsGo : TMap → List Json → Except DecodeErr TMap
  | tm, [] => .ok tm
  | tm, raw :: rest => do
    let am ← match raw.asObj? with
      | some o => .ok o
      | none => .error (.err "Account map is not an object")
    let name ← match (jGet am "name").bind Json.asStr? with
      | some s => .ok s
      | none => .error (.err "Account name is not a string")
    let tm' := if (jGet am "type").isSome then alistInsertIfAbsent tm name am else tm
    parseAccountsGo tm' rest

/-- The `parse_accounts`: a missing or non-array `accounts` key is treated
as the empty list (`unwrap_or_default`). -/
def parseAccounts (root : List (String × Json)) (tm : TMap) :
    Except DecodeErr TMap :=
  parseAccountsGo tm (((jGet root "accounts").bind Json.asArr?).getD [])

/-- The `parse_raw_schema_type`: bracket-array shorthand plus the bare
primitive names; an unknown name is a `panic!`, not an error. -/
def parseRawSchemaTypeF : Nat → String → Except DecodeErr SchemaType
  | 0, _ => .error .outOfFuel
  | fuel + 1, name =>
    match (dropPfx name "[").bind (fun s => dropSfx s "]") with
    | some inner => do
      let parts := splitChar ';' inner
      let tyS ← match parts.head? with
        | some s => .ok (trimStr s)
        | none => .error (.err "Array missing element type")
      let lenS ← match parts.get? 1 with
        | some s => .ok (trimStr s)
        | none => .error (.err "Array missing length")
      if parts.length > 2 then .error (.err "Array syntax has extra parts")
      else do
        let len ← match parseNatDec lenS with
          | some n => .ok n
          | none => .error (.err "invalid digit found in string")
        let elem ← parseRawSchemaTypeF fuel tyS
        .ok (.array len elem)
    | none =>
      match name with
      | "pubkey" => .ok .pubkey
      | "publicKey" => .ok .pubkey
      | "string" => .ok .string
      | "i8" => .ok .i8
      | "u8" => .ok .u8
      | "i16" => .ok .i16
      | "u16" => .ok .u16
      | "i32" => .ok .i32
      | "u32" => .ok .u32
      | "i64" => .ok .i64
      | "u64" => .ok .u64
      | "i128" => .ok .i128
      | "u128" => .ok .u128
      | "f32" => .ok .f32
      | "f64" => .ok .f64
      | "bool" => .ok .bool
      | "bytes" => .ok (.vec .u8)
      | "bytes_remaining" => .ok .remainingBytes
      | "rest" => .ok .remainingBytes
      | _ => .error (.panicked ("Unknown type: " ++ name))

/-- Resolve a SmallVec element-type name: built-ins first, otherwise a
defined user type (the tail of the `defined` arm of
`parse_field_inner`). -/
def smallVecLenOfStr (lenS : String) : Except DecodeErr SmallVecLen :=
  match lenS with
  | "u8" => .ok SmallVecLen.U8
  | "u16" => .ok SmallVecLen.U16
  | other => .error (.err ("Unsupported SmallVec len type: " ++ other))

mutual
/-- The `IdlParser::parse_type`: cache lookup, kind dispatch (`struct` /
`enum`), memo write after resolution. -/
def parseTypeF : Nat → PState → String → Except DecodeErr (SchemaNode × PState)
  | 0, _, _ => .error .outOfFuel
  | fuel + 1, st, typeName =>
    match alistGet st.cache typeName with
    | some schema => .ok (schema, st)
    | none => do
      let entry ← match alistGet st.tm typeName with
        | some e => .ok e
        | none => .error (.err ("Type " ++ typeName ++ " not found in type map"))
      let typObj ← match (jGet entry "type").bind Json.asObj? with
        | some o => .ok o
        | none => .error (.err ("Type for " ++ typeName ++ " is not an object"))
      let kind ← match (jGet typObj "kind").bind Json.asStr? with
        | some s => .ok s
        | none => .error (.err "Kind is not a string")
      let (schema, st') ← match kind with
        | "struct" => do
          let fields ← match (jGet typObj "fields").bind Json.asArr? with
            | some fs => .ok fs
            | none => .error (.err ("Fields for " ++ typeName ++ " is not an array"))
          parseFieldsF fuel st typeName fields
        | "enum" => do
          let variants ← match (jGet typObj "variants").bind Json.asArr? with
            | some vs => .ok vs
            | none => .error (.err ("Variants for " ++ typeName ++ " is not an array"))
          let (nodes, st') ← parseVariantsF fuel st variants
          .ok (SchemaNode.mk typeName (.enum nodes) false, st')
        | _ => .error (.err "Unknown type kind")
      .ok (schema, ⟨st'.tm, alistInsert st'.cache typeName schema⟩)

/-- The variant loop of the `enum` kind: a variant with a `fields` key
wraps the resolved field list, otherwise its payload is `Empty`. -/
def parseVariantsF : Nat → PState → List Json →
    Except DecodeErr (List SchemaNode × PState)
  | 0, _, _ => .error .outOfFuel
  | _ + 1, st, [] => .ok ([], st)
  | fuel + 1, st, rawVariant :: rest => do
    let v ← match rawVariant.asObj? with
      | some o => .ok o
      | none => .error (.err "Variant is not an object")
    let vname ← match (jGet v "name").bind Json.asStr? with
      | some s => .ok s
      | none => .error (.err "Variant name is not a string")
    let (node, st') ← match jGet v "fields" with
      | some fieldsVal => do
        let fields ← match fieldsVal.asArr? with
          | some fs => .ok fs
          | none =>
            .error (.err ("Fields for variant " ++ vname ++ " is not an array"))
        let (inner, st') ← parseFieldsF fuel st vname fields
        .ok (SchemaNode.mk vname inner.typ false, st')
      | none => .ok (SchemaNode.mk vname .empty false, st)
    let (nodes, st2) ← parseVariantsF fuel st' rest
    .ok (node :: nodes, st2)

/-- The `IdlParser::parse_fields`: resolve each field and wrap the list as
a named `Struct` node. -/
def parseFieldsF : Nat → PState → String → List Json →
    Except DecodeErr (SchemaNode × PState)
  | 0, _, _, _ => .error .outOfFuel
  | fuel + 1, st, typeName, fields => do
    let (parsed, st') ← parseFieldListF fuel st fields
    .ok (SchemaNode.mk typeName (.struct parsed) false, st')

/-- The field loop of `parse_fields`. -/
def parseFieldListF : Nat → PState → List Json →
    Except DecodeErr (List SchemaNode × PState)
  | 0, _, _ => .error .outOfFuel
  | _ + 1, st, [] => .ok ([], st)
  | fuel + 1, st, raw :: rest => do
    let (f, st') ← parseFieldF fuel st raw
    let (fs, st2) ← parseFieldListF fuel st' rest
    .ok (f :: fs, st2)

/-- The `IdlParser::parse_field`: a non-object field, or an object without
a `type` key, resolves as an anonymous type; otherwise the `name`
(defaulting to the empty string) and `type` are read. -/
def parseFieldF : Nat → PState → Json → Except DecodeErr (SchemaNode × PState)
  | 0, _, _ => .error .outOfFuel
  | fuel + 1, st, rawField =>
    match rawField.asObj? with
    | none => do
      let (t, st') ← parseFieldInnerF fuel st rawField
      .ok (SchemaNode.mk "" t false, st')
    | some field =>
      match jGet field "type" with
      | none => do
        let (t, st') ← parseFieldInnerF fuel st rawField
        .ok (SchemaNode.mk "" t false, st')
      | some fieldType => do
        let fieldName := ((jGet field "name").bind Json.asStr?).getD ""
        let (t, st') ← parseFieldInnerF fuel st fieldType
        .ok (SchemaNode.mk fieldName t false, st')

/-- The `IdlParser::parse_field_inner`: object forms `vec` / `option` /
`array` / `defined` (including the inline `SmallVec<Len,Elem>`
convention), or a bare type-name string. -/
def parseFieldInnerF : Nat → PState → Json → Except DecodeErr (SchemaType × PState)
  | 0, _, _ => .error .outOfFuel
  | fuel + 1, st, fieldType =>
    match fieldType.asObj? with
    | some ftFields => do
      let (key, value) ← match ftFields.head? with
        | some kv => .ok kv
        | none => .error (.err "Field type object is empty")
      match key with
      | "vec" =>
        if value.isObj then do
          let (t, st') ← parseFieldInnerF fuel st value
          .ok (.vec t, st')
        else do
          let s ← match value.asStr? with
            | some s => .ok s
            | none => .error (.err "Vec type is not a string")
          let t ← parseRawSchemaTypeF fuel s
          .ok (.vec t, st)
      | "option" =>
        if value.isObj then do
          let (t, st') ← parseFieldInnerF fuel st value
          .ok (.option t, st')
        else do
          let s ← match value.asStr? with
            | some s => .ok s
            | none => .error (.err "Option type is not a string")
          let t ← parseRawSchemaTypeF fuel s
          .ok (.option t, st)
      | "array" => do
        let innerArray ← match value.asArr? with
          | some a => .ok a
          | none => .error (.err "Array is not an array")
        let size ← match (innerArray.get? 1).bind Json.asU64? with
          | some n => .ok n
          | none => .error (.err "Array size is not a u64")
        let v0 ← match innerArray.head? with
          | some v => .ok v
          | none => .error (.err "Array value not found")
        if v0.isObj then
          -- mirrors the source: the object case returns the inner
          -- type unwrapped, without the Array constructor around it
          parseFieldInnerF fuel st v0
        else do
          let s ← match v0.asStr? with
            | some s => .ok s
            | none => .error (.err "Array type is not a string")
          let t ← parseRawSchemaTypeF fuel s
          .ok (.array size t, st)
      | "defined" => do
        let innerType ← match value.asStr? with
          | some s => .ok s
          | none => .error (.err "Defined type is not a string")
        match (dropPfx innerType "SmallVec<").bind (fun s => dropSfx s ">") with
        | some inner => do
          let parts := (splitChar ',' inner).map trimStr
          let lenS ← match parts.head? with
            | some s => .ok s
            | none => .error (.err "SmallVec missing len type")
          let elemS ← match parts.get? 1 with
            | some s => .ok s
            | none => .error (.err "SmallVec missing elem type")
          if parts.length > 2 then
            .error (.err "SmallVec has more than two generic params")
          else do
            let lenTy ← smallVecLenOfStr lenS
            let (elemTy, st') ←
              if eqIgnoreAsciiCase elemS "pubkey" || eqIgnoreAsciiCase elemS "publickey" then
                .ok (SchemaType.pubkey, st)
              else
                match elemS with
                | "string" => .ok (SchemaType.string, st)
                | "i8" => .ok (SchemaType.i8, st)
                | "u8" => .ok (SchemaType.u8, st)
                | "i16" => .ok (SchemaType.i16, st)
                | "u16" => .ok (SchemaType.u16, st)
                | "i32" => .ok (SchemaType.i32, st)
                | "u32" => .ok (SchemaType.u32, st)
                | "i64" => .ok (SchemaType.i64, st)
                | "u64" => .ok (SchemaType.u64, st)
                | "i128" => .ok (SchemaType.i128, st)
                | "u128" => .ok (SchemaType.u128, st)
                | "f32" => .ok (SchemaType.f32, st)
                | "f64" => .ok (SchemaType.f64, st)
                | "bool" => .ok (SchemaType.bool, st)
                | otherDefined => do
                  let (node, st') ← parseTypeF fuel st otherDefined
                  .ok (node.typ, st')
            .ok (.smallVec lenTy elemTy, st')
        | none => do
          let (node, st') ← parseTypeF fuel st innerType
          .ok (node.typ, st')
      | _ => .error (.err "Unknown field type")
    | none => do
      let s ← match fieldType.asStr? with
        | some s => .ok s
        | none => .error (.err "Field type is not a string")
      let t ← parseRawSchemaTypeF fuel s
      .ok (t, st)
end

/-- The key loop of `IdlParser::parse`: resolve every table entry; a
returned error is logged and the type skipped, but a panic (or the
embedding's fuel exhaustion standing in for the unguarded-recursion
divergence) propagates. -/
def idlParserParseGo (fuel : Nat) :
    PState → List (String × SchemaNode) → List String →
    Except DecodeErr (List (String × SchemaNode) × PState)
  | st, types, [] => .ok (types, st)
  | st, types, typeName :: rest =>
    match parseTypeF fuel st typeName with
    | .ok (schema, st') =>
      idlParserParseGo fuel st' (alistInsert types typeName schema) rest
    | .error (.err _) => idlParserParseGo fuel st types rest
    | .error e => .error e

/-- The `IdlParser::parse`. -/
def idlParserParse (fuel : Nat) (st : PState) :
    Except DecodeErr (List (String × SchemaNode) × PState) :=
  idlParserParseGo fuel st [] (st.tm.map (·.1))

/-- The byte loop of `parse_any_discriminator`'s array form: each
entry must be a number (`as_u64`), truncated to a byte by `as u8`. -/
def discBytesGo : List Json → Except DecodeErr (List Nat)
  | [] => .ok []
  | b :: rest =>
    match b.asU64? with
    | some n => do
      let bs ← discBytesGo rest
      .ok (n % 256 :: bs)
    | none => .error (.err "Discriminator byte is not a number")

/-- The `parse_any_discriminator`: either the object form
`{type: "u8"|"u64", value}` or a raw little-endian byte array
(zero-padded / truncated to 8 bytes; width = the array's length as
`u8`). -/
def parseAnyDiscriminator (v : Json) : Except DecodeErr (Nat × Nat) :=
  match v.asObj? with
  | some obj => do
    let typ ← match (jGet obj "type").bind Json.asStr? with
      | some s => .ok s
      | none => .error (.err "Discriminant type is not a string")
    let discLen ← match typ with
      | "u8" => .ok 1
      | "u64" => .ok 8
      | other => .error (.err ("Unknown discriminant type: " ++ other))
    let val ← match (jGet obj "value").bind Json.asU64? with
      | some n => .ok n
      | none => .error (.err "Discriminant value is not a u64")
    .ok (val, discLen)
  | none =>
    match v.asArr? with
    | some arr => do
      let bytes ← discBytesGo (arr.take 8)
      .ok (natFromLeBytes bytes, arr.length % 256)
    | none =>
      .error (.err "Unsupported discriminator/discriminant value; expected object or byte array")

/-- The account loop of `parse_account_schemas`: resolve each account's
discriminator (explicit `discriminant` / `discriminator` key, or the
implicit hash), record its width, and insert the account's resolved
schema (overwriting on key collision). -/
def parseAccountSchemasGo (ext : Ext) (schemaMap : List (String × SchemaNode)) :
    List Nat → List (Nat × SchemaNode) → List Json →
    Except DecodeErr (List Nat × List (Nat × SchemaNode))
  | discTypes, accounts, [] => .ok (discTypes, accounts)
  | discTypes, accounts, raw :: rest => do
    let am ← match raw.asObj? with
      | some o => .ok o
      | none => .error (.err "Account map is not an object")
    let name ← match (jGet am "name").bind Json.asStr? with
      | some s => .ok s
      | none => .error (.err "Account name is not a string")
    let (key, discLen) ←
      match (jGet am "discriminant").orElse (fun _ => jGet am "discriminator") with
      | some d => parseAnyDiscriminator d
      | none => do
        let (key, _) ← parseImplicitDiscriminant ext name
        .ok (key, 8)
    let schema ← match alistGet schemaMap name with
      | some s => .ok s
      | none => .error (.err "Account not found in schema map")
    parseAccountSchemasGo ext schemaMap (setInsert discTypes discLen)
      (nmapInsert accounts key schema) rest

/-- The `parse_account_schemas`: loop over the (defaulted-empty) accounts
array, reject mixed discriminator widths, default the width to 8. -/
def parseAccountSchemas (ext : Ext) (root : List (String × Json))
    (schemaMap : List (String × SchemaNode)) :
    Except DecodeErr (List (Nat × SchemaNode) × Nat) := do
  let accountList := ((jGet root "accounts").bind Json.asArr?).getD []
  let (discTypes, accounts) ← parseAccountSchemasGo ext schemaMap [] [] accountList
  if discTypes.length > 1 then
    .error (.err "Multiple discriminant types found")
  else
    .ok (accounts, (discTypes.head?).getD 8)

/-- The account loop of `parse_instruction_accounts`. -/
def instructionAccountsGo : List Json → Except DecodeErr (List String)
  | [] => .ok []
  | rawAccount :: rest =>
    match rawAccount.asObj? with
    | none => .error (.err "Account is not an object")
    | some a =>
      match (jGet a "name").bind Json.asStr? with
      | some s => do
        let names ← instructionAccountsGo rest
        .ok (s :: names)
      | none => .error (.err "Account name is not a string")

/-- The `parse_instruction_accounts`: a missing or non-array `accounts`
key on an instruction is an error (unlike the top level). -/
def parseInstructionAccounts (im : List (String × Json)) :
    Except DecodeErr (List String) := do
  let accountsList ← match (jGet im "accounts").bind Json.asArr? with
    | some a => .ok a
    | none => .error (.err "Accounts is not an array")
  instructionAccountsGo accountsList

/-- The `parse_instruction_args` (`unwrap_or_default`). -/
def parseInstructionArgs (im : List (String × Json)) : List Json :=
  ((jGet im "args").bind Json.asArr?).getD []

/-- The instruction loop of `parse_instructions`. -/
def parseInstructionsGo (ext : Ext) (fuel : Nat) :
    PState → List Nat → List (Nat × InstructionDecoder) → List Json →
    Except DecodeErr (List Nat × List (Nat × InstructionDecoder) × PState)
  | st, discTypes, params, [] => .ok (discTypes, params, st)
  | st, discTypes, params, raw :: rest => do
    let im ← match raw.asObj? with
      | some o => .ok o
      | none => .error (.err "Instruction map is not an object")
    let name ← match (jGet im "name").bind Json.asStr? with
      | some s => .ok s
      | none => .error (.err "Instruction name is not a string")
    let accounts ← parseInstructionAccounts im
    let instructionArgs := parseInstructionArgs im
    let (argsParser, st') ←
      if instructionArgs.isEmpty then
        .ok (SchemaNode.mk name .empty false, st)
      else
        parseFieldsF fuel st name instructionArgs
    let decoder : InstructionDecoder := ⟨accounts, argsParser⟩
    let (key, discLen) ←
      match (jGet im "discriminant").orElse (fun _ => jGet im "discriminator") with
      | some d => parseAnyDiscriminator d
      | none => do
        let (key, _) ← parseImplicitInstructionDiscriminant ext name
        .ok (key, 8)
    parseInstructionsGo ext fuel st' (setInsert discTypes discLen)
      (nmapInsert params key decoder) rest

/-- The `parse_instructions`: loop over the (defaulted-empty) instructions
array, reject mixed widths, default the width to 8. -/
def parseInstructions (ext : Ext) (fuel : Nat) (root : List (String × Json))
    (st : PState) :
    Except DecodeErr (List (Nat × InstructionDecoder) × Nat × PState) := do
  let instructionList := ((jGet root "instructions").bind Json.asArr?).getD []
  let (discTypes, params, st') ← parseInstructionsGo ext fuel st [] [] instructionList
  if discTypes.length > 1 then
    .error (.err "Multiple discriminant types found")
  else
    .ok (params, (discTypes.head?).getD 8, st')

/-- The `parse_idl` on an already-parsed JSON document (the `serde_json`
text parsing itself is external): build the type table, merge legacy
account layouts, resolve all types, build both discriminator maps, and
run the round-trip self check. -/
def parseIdl (ext : Ext) (fuel : Nat) (root : Json) :
    Except DecodeErr OnChainIdl := do
  let rootObj ← match root.asObj? with
    | some o => .ok o
    | none => .error (.err "Root is not an object")
  let tm ← parseTypes rootObj
  let tm2 ← parseAccounts rootObj tm
  let (schemaMap, st2) ← idlParserParse fuel ⟨tm2, []⟩
  let (accounts, accountDiscLen) ← parseAccountSchemas ext rootObj schemaMap
  let (instructionParams, instructionDiscLen, _) ←
    parseInstructions ext fuel rootObj st2
  let idl : OnChainIdl :=
    ⟨((jGet rootObj "name").bind Json.asStr?).getD "",
      accountDiscLen, instructionDiscLen, accounts, instructionParams⟩
  let _ ← validateOnChainIdl ext idl
  .ok idl

/-! ## Concrete instantiations used by witnesses -/

/-- A concrete `Ext` for witnesses: strings encode as one codepoint per
"byte" (making the encode/decode pair exactly inverse), the hash is a
fixed 32-byte value, and the opaque renderings are constants.  Theorems
quantify over `Ext`; this is only an instantiation of that boundary. -/
def extChar : Ext :=
  ⟨fun s => s.data.map Char.toNat,
   fun l => some ⟨l.map Char.ofNat⟩,
   fun _ => List.replicate 32 0,
   fun _ => "pk",
   fun _ => "f32",
   fun _ => "f64"⟩

/-- A two-accounts / two-instructions document in which both accounts
declare the byte-array discriminator `[7]` and both instructions
declare `[9]` (duplicate keys within each kind). -/
def docDupEntry (nm fld ft : String) : Json :=
  .obj [("name", .str nm), ("discriminant", .arr [.num 7]),
        ("type", .obj [("kind", .str "struct"),
          ("fields", .arr [.obj [("name", .str fld), ("type", .str ft)]])])]

/-- The duplicate-discriminator document itself. -/
def docDup : Json :=
  .obj [("name", .str "dup"), ("types", .arr []),
    ("accounts", .arr [docDupEntry "A" "x" "u8", docDupEntry "B" "y" "u16"]),
    ("instructions", .arr [
      .obj [("name", .str "f"), ("accounts", .arr []), ("args", .arr []),
            ("discriminant", .arr [.num 9])],
      .obj [("name", .str "g"), ("accounts", .arr []),
            ("args", .arr [.obj [("name", .str "z"), ("type", .str "u8")]]),
            ("discriminant", .arr [.num 9])]])]

/-- A document with a well-formed `types` array but no `accounts` and
no `instructions` key at all. -/
def docNoAccounts : Json := .obj [("name", .str "x"), ("types", .arr [])]

/-- A document with no `types` key. -/
def docNoTypes : Json := .obj [("name", .str "x")]

/-- A one-account program index used by the decode-account witness. -/
def accountIdlExample : OnChainIdl :=
  ⟨"p", 1, 1, [(7, .mk "Acc" .u8 false)], []⟩

/-- The program index that compiling `docDup` must produce: one entry
per duplicated key, holding the schema of the entry processed last
(`B` for accounts, `g` for instructions). -/
def dupIdlExpected : OnChainIdl :=
  ⟨"dup", 1, 1,
    [(7, .mk "B" (.struct [.mk "y" .u16 false]) false)],
    [(9, ⟨[], .mk "g" (.struct [.mk "z" .u8 false]) false⟩)]⟩

/-! ## Well-formedness and fuel bounds for the schema codec round trip

The Rust types bound what the embedding's `Nat`s do not: `usize`
lengths are below `2^64` and borsh writes a string's byte length as
`u32`.  `wfSchemaType` states exactly those bounds. -/

mutual
/-- Every length in the value fits its Rust integer type: array sizes
and list lengths below `2^64`, encoded name lengths below `2^32`. -/
def wfSchemaType (ext : Ext) : SchemaType → Bool
  | .option t => wfSchemaType ext t
  | .array n t => decide (n < 2 ^ 64) && wfSchemaType ext t
  | .tuple ts => decide (ts.length < 2 ^ 64) && wfSchemaTypeList ext ts
  | .vec t => wfSchemaType ext t
  | .struct ns => decide (ns.length < 2 ^ 64) && wfSchemaNodeList ext ns
  | .enum ns => decide (ns.length < 2 ^ 64) && wfSchemaNodeList ext ns
  | .smallVec _ t => wfSchemaType ext t
  | _ => true

/-- Node well-formedness: encoded name fits a `u32` length prefix. -/
def wfSchemaNode (ext : Ext) : SchemaNode → Bool
  | .mk name t _ => decide ((ext.utf8Enc name).length < 2 ^ 32) && wfSchemaType ext t

/-- List versions. -/
def wfSchemaTypeList (ext : Ext) : List SchemaType → Bool
  | [] => true
  | t :: ts => wfSchemaType ext t && wfSchemaTypeList ext ts

/-- List versions. -/
def wfSchemaNodeList (ext : Ext) : List SchemaNode → Bool
  | [] => true
  | n :: ns => wfSchemaNode ext n && wfSchemaNodeList ext ns
end

mutual
/-- Fuel sufficient for `deserializeSchemaTypeF` to decode this
value's encoding. -/
def schemaTypeNeed : SchemaType → Nat
  | .option t => 1 + schemaTypeNeed t
  | .array _ t => 1 + schemaTypeNeed t
  | .tuple ts => 1 + schemaTypeListNeed ts
  | .vec t => 1 + schemaTypeNeed t
  | .struct ns => 1 + schemaNodeListNeed ns
  | .enum ns => 1 + schemaNodeListNeed ns
  | .smallVec _ t => 1 + schemaTypeNeed t
  | _ => 1

/-- Fuel for a node's encoding. -/
def schemaNodeNeed : SchemaNode → Nat
  | .mk _ t _ => 1 + schemaTypeNeed t

/-- Fuel for a type-list encoding. -/
def schemaTypeListNeed : List SchemaType → Nat
  | [] => 1
  | t :: ts => 1 + max (schemaTypeNeed t) (schemaTypeListNeed ts)

/-- Fuel for a node-list encoding. -/
def schemaNodeListNeed : List SchemaNode → Nat
  | [] => 1
  | n :: ns => 1 + max (schemaNodeNeed n) (schemaNodeListNeed ns)
end

/-- A single `SchemaType` value exercising every constructor of the
grammar — including `RemainingBytes` — used as the round-trip witness
input. -/
def schemaAllCtors : SchemaType :=
  .struct
    [.mk "a"
      (.tuple
        [.empty, .pubkey, .string, .i8, .u8, .i16, .u16, .i32, .u32,
         .i64, .u64, .i128, .u128, .f32, .f64, .bool,
         .option (.array 3 (.vec .u8)),
         .smallVec SmallVecLen.U16 .string]) false,
     .mk "b" (.enum [.mk "v1" .remainingBytes true, .mk "v2" .empty false]) true]

/-! ## Shared lemmas -/

/-- The witness `Ext`'s string decode undoes its encode. -/
theorem extChar_utf8_inverse (s : String) :
    extChar.utf8Dec (extChar.utf8Enc s) = some s := by
  show some (String.mk ((s.data.map Char.toNat).map Char.ofNat)) = some s
  rw [List.map_map]
  have h1 : s.data.map (Char.ofNat ∘ Char.toNat) = s.data.map id :=
    List.map_congr_left (fun c _ => Char.ofNat_toNat c)
  rw [h1, List.map_id]

/-- Reading exactly the bytes that sit at the front. -/
theorem readBytes_append (xs rest : List Nat) (n : Nat) (h : xs.length = n) :
    readBytes n (xs ++ rest) = .ok (xs, rest) := by
  subst h
  simp [readBytes, List.take_left, List.drop_left]

/-- Reading back a `w`-byte little-endian integer below `2^(8w)`. -/
theorem readUIntLe_append (w n : Nat) (rest : List Nat) (h : n < 256 ^ w) :
    readUIntLe w (natToLeBytes w n ++ rest) = .ok (n, rest) := by
  simp [readUIntLe, readBytes_append _ _ _ (length_natToLeBytes w n),
    natFromLeBytes_natToLeBytes w n h, Bind.bind, Except.bind]

/-- One-byte reads peel the head. -/
theorem readUIntLe_one (b : Nat) (rest : List Nat) :
    readUIntLe 1 (b :: rest) = .ok (b, rest) := by
  simp [readUIntLe, readBytes, natFromLeBytes, Bind.bind, Except.bind]

/-! ## C9 — Option with a non-1 presence flag -/

/-- C9: for every Option(inner) schema, decoding a buffer whose
presence-flag byte is any value other than 1 (not only 0) succeeds,
produces an absent Option value, consumes only that one flag byte (the
returned tail is the rest of the buffer, untouched), and is never an
error. -/
theorem c9_option_flag_not_one (ext : Ext) (sh : Bool) (inner : SchemaType)
    (fuel flag : Nat) (rest : List Nat) (h : flag ≠ 1) :
    deserializeTypeF ext sh (fuel + 1) (.option inner) (flag :: rest) =
      .ok (.option none, rest) := by
  have hbeq : (flag == 1) = false := by simpa using h
  simp [deserializeTypeF, readUIntLe_one, hbeq, Bind.bind, Except.bind]

/-- Witness for C9 at flag byte 2. -/
theorem c9_option_flag_not_one_witness :
    (2 : Nat) ≠ 1 ∧
      deserializeTypeF extChar false 1 (.option .u8) [2, 9] =
        .ok (.option none, [9]) :=
  ⟨by decide, c9_option_flag_not_one extChar false .u8 0 2 [9] (by decide)⟩

/-! ## C2 — RemainingBytes consumes the whole rest of the buffer -/

/-- C2: for every buffer, decoding a RemainingBytes schema consumes
the entire rest of the buffer (the returned tail is empty) and
produces it as a raw-bytes value, with no length prefix read
beforehand (the whole buffer, starting with its first byte, lands in
the value). -/
theorem c2_remaining_bytes_consumes_rest (ext : Ext) (sh : Bool)
    (fuel : Nat) (bs : List Nat) :
    deserializeTypeF ext sh (fuel + 1) .remainingBytes bs =
      .ok (.bytes bs, []) := by
  simp [deserializeTypeF, deserializeRemainingBytes]

/-! ## C4 — an out-of-range enum selector panics instead of erroring -/

/-- C4 (failing input): decoding an Enum with one declared variant
against the buffer `[5]` hits `t[discriminant as usize]` with index 5,
which is a Rust panic (index out of bounds), not a returned error —
contradicting the claim that every decode failure surfaces as a
returned error outcome. -/
theorem c4_enum_selector_out_of_range_panics :
    deserializeTypeF extChar false 2 (.enum [.mk "A" .empty false]) [5] =
      .error (.panicked "index out of bounds") := rfl

/-! ## C3 — hidden enum variant: fails only when hidden output is not
requested -/

/-- C3 (counterexample): with `show_hidden = true`, decoding an Enum
whose selected variant is hidden succeeds — the claim says it always
fails regardless of `show_hidden`. -/
theorem c3_hidden_variant_succeeds_when_shown :
    deserializeTypeF extChar true 3 (.enum [.mk "V" .u8 true]) [0, 42] =
      .ok (.enum (.mk "V" (.u8 42)), []) := rfl

/-- C3 (amended): when the selector byte picks a hidden variant whose
payload decodes, the Enum decode fails with the hidden-variant error
for `show_hidden = false`, and succeeds (with the variant's value) for
`show_hidden = true`. -/
theorem c3_hidden_variant_fails_iff_not_shown (ext : Ext)
    (variants : List SchemaNode) (d : Nat) (bs : List Nat)
    (h : d < variants.length)
    (hhid : (variants.get ⟨d, h⟩).isHidden = true) :
    (∀ fuel v rest,
      deserializeTypeF ext false fuel (variants.get ⟨d, h⟩).typ bs = .ok (v, rest) →
      deserializeTypeF ext false (fuel + 2) (.enum variants) (d :: bs) =
        .error (.err "is_hidden should not appear in Enum types")) ∧
    (∀ fuel v rest,
      deserializeTypeF ext true fuel (variants.get ⟨d, h⟩).typ bs = .ok (v, rest) →
      deserializeTypeF ext true (fuel + 2) (.enum variants) (d :: bs) =
        .ok (.enum (.mk (variants.get ⟨d, h⟩).name v), rest)) := by
  constructor
  · intro fuel v rest hdec
    simp only [List.get_eq_getElem] at hdec hhid
    simp [deserializeTypeF, readUIntLe_one, h, deserializeNodeF, hdec, hhid,
      Bind.bind, Except.bind]
  · intro fuel v rest hdec
    simp only [List.get_eq_getElem] at hdec hhid
    simp [deserializeTypeF, readUIntLe_one, h, deserializeNodeF, hdec, hhid,
      Bind.bind, Except.bind]

/-- Witness for the amended C3 on a one-variant enum with a hidden
`u8` payload. -/
theorem c3_hidden_variant_fails_iff_not_shown_witness :
    deserializeTypeF extChar false 3 (.enum [.mk "V" .u8 true]) [0, 42] =
        .error (.err "is_hidden should not appear in Enum types") ∧
      deserializeTypeF extChar true 3 (.enum [.mk "V" .u8 true]) [0, 42] =
        .ok (.enum (.mk "V" (.u8 42)), []) :=
  ⟨(c3_hidden_variant_fails_iff_not_shown extChar [.mk "V" .u8 true] 0 [42]
      (by decide) rfl).1 1 (.u8 42) [] rfl,
   (c3_hidden_variant_fails_iff_not_shown extChar [.mk "V" .u8 true] 0 [42]
      (by decide) rfl).2 1 (.u8 42) [] rfl⟩

/-! ## C5 — decode-account -/

/-- Appending zero bytes does not change a little-endian value. -/
theorem natFromLeBytes_append_zeros (xs : List Nat) (k : Nat) :
    natFromLeBytes (xs ++ List.replicate k 0) = natFromLeBytes xs := by
  induction xs with
  | nil =>
    simp [natFromLeBytes]
    induction k with
    | zero => simp [natFromLeBytes]
    | succ k ih => simpa [List.replicate_succ, natFromLeBytes] using ih
  | cons b bs ih => simp [natFromLeBytes, ih]

/-- C5: decode-account fails when the buffer is shorter than the
account discriminator width; otherwise the discriminator is the
8-byte little-endian integer obtained by zero-padding/truncating the
first `width` bytes; it fails when no account entry carries that key;
and otherwise it decodes exactly the bytes after the discriminator
prefix against the matched schema, failing when the schema node
resolves to `None` and propagating any decode error. -/
theorem c5_get_parsed_account (ext : Ext) (fuel : Nat) (idl : OnChainIdl)
    (data : List Nat) (sh : Bool) :
    (getAccountDiscriminator idl data =
      natFromLeBytes (data.take (min idl.accountDiscLen 8) ++
        List.replicate (8 - min idl.accountDiscLen 8) 0)) ∧
    (data.length < idl.accountDiscLen →
      getParsedAccount ext fuel idl data sh =
        .error (.err "Account data is too short")) ∧
    (idl.accountDiscLen ≤ data.length →
      (∀ p ∈ idl.accounts, p.1 ≠ getAccountDiscriminator idl data) →
      getParsedAccount ext fuel idl data sh =
        .error (.err "Account discriminant not found")) ∧
    (∀ k schema, idl.accountDiscLen ≤ data.length →
      idl.accounts.find? (fun p => p.1 == getAccountDiscriminator idl data) =
        some (k, schema) →
      (∀ v rest,
        deserializeNodeF ext sh fuel schema (data.drop idl.accountDiscLen) =
          .ok (some v, rest) →
        getParsedAccount ext fuel idl data sh =
          .ok ⟨schema.name, schema.typ, v.value⟩) ∧
      (∀ rest,
        deserializeNodeF ext sh fuel schema (data.drop idl.accountDiscLen) =
          .ok (none, rest) →
        getParsedAccount ext fuel idl data sh =
          .error (.err "Account type should not be hidden")) ∧
      (∀ e,
        deserializeNodeF ext sh fuel schema (data.drop idl.accountDiscLen) =
          .error e →
        getParsedAccount ext fuel idl data sh = .error e)) := by
  refine ⟨?_, ?_, ?_, ?_⟩
  · rw [getAccountDiscriminator, natFromLeBytes_append_zeros]
  · intro hshort
    simp [getParsedAccount, hshort]
  · intro hle hnone
    have hfind : idl.accounts.find?
        (fun p => p.1 == getAccountDiscriminator idl data) = none := by
      apply List.find?_eq_none.mpr
      intro p hp
      simpa using hnone p hp
    simp [getParsedAccount, Nat.not_lt.mpr hle, hfind]
  · intro k schema hle hfind
    refine ⟨?_, ?_, ?_⟩
    · intro v rest hdec
      simp [getParsedAccount, Nat.not_lt.mpr hle, hfind, hdec]
    · intro rest hdec
      simp [getParsedAccount, Nat.not_lt.mpr hle, hfind, hdec]
    · intro e hdec
      simp [getParsedAccount, Nat.not_lt.mpr hle, hfind, hdec]

/-- Witness for C5: a one-account index decodes `[7, 42]` into the
`u8` value 42 behind discriminator 7. -/
theorem c5_get_parsed_account_witness :
    deserializeNodeF extChar false 2 (.mk "Acc" .u8 false) [42] =
        .ok (some (.mk "Acc" (.u8 42)), []) ∧
      getParsedAccount extChar 2 accountIdlExample [7, 42] false =
        .ok ⟨"Acc", .u8, .u8 42⟩ :=
  ⟨rfl,
    ((c5_get_parsed_account extChar 2 accountIdlExample [7, 42] false).2.2.2
        7 (.mk "Acc" .u8 false) (by decide) rfl).1
      (.mk "Acc" (.u8 42)) [] rfl⟩

/-! ## C6 — implicit discriminators and the case conversion -/

/-- A character that is not an (ASCII) uppercase letter is unchanged
by `to_lowercase`. -/
theorem toLower_of_not_upper (c : Char) (h : c.isUpper = false) :
    c.toLower = c := by
  simp only [Char.isUpper, Bool.and_eq_false_iff, decide_eq_false_iff_not] at h
  simp [Char.toLower, Char.toNat]
  intro h1 h2
  exfalso
  rcases h with h | h
  · exact h (show (65 : UInt32) ≤ c.val from h1)
  · exact h (show c.val ≤ (90 : UInt32) from h2)

/-- A list with an appended element is never empty. -/
theorem isEmpty_append_singleton {α : Type} (acc : List α) (x : α) :
    (acc ++ [x]).isEmpty = false := by
  cases acc <;> rfl

/-- The imperative loop of `camel_to_snake_case` computes the spec's
per-character description, with "at the start of the string" realised
as "the accumulated result is still empty". -/
theorem camelToSnakeGo_eq (l : List Char) : ∀ acc : List Char,
    camelToSnakeGo acc l = acc ++ snakeCaseSpecGo acc.isEmpty l := by
  induction l with
  | nil => intro acc; simp [camelToSnakeGo, snakeCaseSpecGo]
  | cons c cs ih =>
    intro acc
    by_cases hu : c.isUpper
    · by_cases hp : peekLowerOrDigit cs
      · cases acc with
        | nil =>
          simp [camelToSnakeGo, snakeCaseSpecGo, hu, hp, ih,
            isEmpty_append_singleton]
        | cons a as =>
          simp [camelToSnakeGo, snakeCaseSpecGo, hu, hp, ih,
            isEmpty_append_singleton, List.append_assoc]
      · simp [camelToSnakeGo, snakeCaseSpecGo, hu, hp, ih,
          isEmpty_append_singleton]
    · simp [camelToSnakeGo, snakeCaseSpecGo, hu, ih,
        toLower_of_not_upper c (by simpa using hu), isEmpty_append_singleton]

/-- The `camel_to_snake_case` equals the spec-described conversion. -/
theorem camelToSnakeCase_eq_spec (s : String) :
    camelToSnakeCase s = snakeCaseSpec s := by
  rw [camelToSnakeCase, snakeCaseSpec, camelToSnakeGo_eq]
  rfl

/-- C6: the implicit account discriminator is the first 8 bytes of
`hash("account:" + N)` read little-endian; the implicit instruction
discriminator is the first 8 bytes of `hash("global:" +
snake_case(N))` read little-endian, where `snake_case` is exactly the
spec's described insertion-and-lowercase rule (`snakeCaseSpec`), with
`snake_case("mintV1") = "mint_v1"` and
`snake_case("NFTMetadataUpdate") = "nft_metadata_update"`.  Both
computations are pure functions of the name (and the hash at the
boundary), so call order or caching cannot affect them. -/
theorem c6_implicit_discriminators (ext : Ext) (name : String)
    (ha : 8 ≤ (ext.hashFn (ext.utf8Enc ("account:" ++ name))).length)
    (hi : 8 ≤ (ext.hashFn
      (ext.utf8Enc ("global:" ++ camelToSnakeCase name))).length) :
    parseImplicitDiscriminant ext name =
      .ok (natFromLeBytes
        ((ext.hashFn (ext.utf8Enc ("account:" ++ name))).take 8), 8) ∧
    parseImplicitInstructionDiscriminant ext name =
      .ok (natFromLeBytes
        ((ext.hashFn (ext.utf8Enc ("global:" ++ snakeCaseSpec name))).take 8), 8) ∧
    camelToSnakeCase name = snakeCaseSpec name ∧
    camelToSnakeCase "mintV1" = "mint_v1" ∧
    camelToSnakeCase "NFTMetadataUpdate" = "nft_metadata_update" := by
  refine ⟨?_, ?_, camelToSnakeCase_eq_spec name, rfl, rfl⟩
  · simp [parseImplicitDiscriminant, ha]
  · rw [← camelToSnakeCase_eq_spec name]
    simp [parseImplicitInstructionDiscriminant, hi]

/-- Witness for C6 with the concrete all-zero 32-byte hash. -/
theorem c6_implicit_discriminators_witness :
    (8 ≤ (extChar.hashFn (extChar.utf8Enc ("account:" ++ "mintV1"))).length) ∧
      parseImplicitDiscriminant extChar "mintV1" = .ok (0, 8) ∧
      camelToSnakeCase "mintV1" = "mint_v1" := by
  refine ⟨by decide, ?_, ?_⟩
  · have h := c6_implicit_discriminators extChar "mintV1" (by decide) (by decide)
    simpa using h.1
  · exact (c6_implicit_discriminators extChar "mintV1" (by decide) (by decide)).2.2.2.1

/-! ## C7 — JSON rendering of a decoded Enum -/

/-- C7 (counterexample): a decoded Enum variant `V` with the non-empty
payload `u8 1` renders as the serialized `ValueNode` — a JSON object
with `name` and `value` keys — and not as the payload's rendered value
alone (`1`), as the claim states. -/
theorem c7_enum_payload_renders_wrapped :
    renderTypedValue extChar (.enum (.mk "V" (.u8 1))) =
        .obj [("name", .str "V"), ("value", .num 1)] ∧
      renderTypedValue extChar (.enum (.mk "V" (.u8 1))) ≠
        renderTypedValue extChar (.u8 1) :=
  ⟨rfl, fun h => Json.noConfusion h⟩

/-- C7 (amended): an Enum variant with an Empty payload renders as the
bare variant name string; a variant with a non-empty payload renders
as the derived serialization of the boxed `ValueNode`: a JSON object
`{"name": <variant name>, "value": <rendered payload>}`. -/
theorem c7_enum_rendering (ext : Ext) (n : String) (val : TypedValue) :
    (val = .empty → renderTypedValue ext (.enum (.mk n val)) = .str n) ∧
    (val ≠ .empty → renderTypedValue ext (.enum (.mk n val)) =
      .obj [("name", .str n), ("value", renderTypedValue ext val)]) := by
  constructor
  · intro h
    subst h
    rfl
  · intro h
    cases val <;> first | exact absurd rfl h | rfl

/-- Witness for the amended C7 at both an Empty and a `u8` payload. -/
theorem c7_enum_rendering_witness :
    renderTypedValue extChar (.enum (.mk "E" .empty)) = .str "E" ∧
      renderTypedValue extChar (.enum (.mk "V" (.u8 1))) =
        .obj [("name", .str "V"), ("value", renderTypedValue extChar (.u8 1))] :=
  ⟨(c7_enum_rendering extChar "E" .empty).1 rfl,
   (c7_enum_rendering extChar "V" (.u8 1)).2 (fun h => TypedValue.noConfusion h)⟩

/-! ## C8 — missing top-level arrays -/

/-- C8 (counterexample): a document whose `accounts` and
`instructions` keys are entirely absent compiles successfully — the
missing arrays are silently treated as empty (`unwrap_or_default`),
contradicting the claim that a missing `accounts` or `instructions`
array fails compilation. -/
theorem c8_missing_accounts_instructions_succeeds :
    parseIdl extChar 100 docNoAccounts = .ok ⟨"x", 8, 8, [], []⟩ := rfl

/-- C8 (amended): a missing or non-array `types` key fails terminally
with "Types is not an array", but a missing or non-array `accounts` or
`instructions` key is silently treated as the empty list and
compilation succeeds (shown on the concrete keyless document). -/
theorem c8_only_types_required (ext : Ext) (fuel : Nat) (root : Json)
    (fields : List (String × Json)) (hobj : root.asObj? = some fields)
    (htypes : (jGet fields "types").bind Json.asArr? = none) :
    parseIdl ext fuel root = .error (.err "Types is not an array") ∧
      parseIdl extChar 100 docNoAccounts = .ok ⟨"x", 8, 8, [], []⟩ := by
  refine ⟨?_, rfl⟩
  simp [parseIdl, hobj, parseTypes, htypes, Bind.bind, Except.bind]

/-- Witness for the amended C8 on the document with no `types` key. -/
theorem c8_only_types_required_witness :
    parseIdl extChar 100 docNoTypes = .error (.err "Types is not an array") :=
  (c8_only_types_required extChar 100 docNoTypes [("name", .str "x")] rfl rfl).1

/-! ## C10 — duplicate discriminator keys -/

/-- C10: compiling an IDL in which two account entries share the
discriminator key 7 and two instruction entries share the key 9
succeeds without error, and each resulting map holds exactly one entry
per key — the schema of the entry processed last (`"B"`, `"g"`); in
general the map insert used by both loops (`HashMap::insert`)
overwrites, so the later entry silently replaces the earlier one. -/
theorem c10_duplicate_discriminator_last_wins :
    parseIdl extChar 100 docDup = .ok dupIdlExpected ∧
      (∀ (α : Type) (m : List (Nat × α)) (k : Nat) (v : α),
        nmapGet (nmapInsert m k v) k = some v) := by
  refine ⟨rfl, ?_⟩
  intro α m k v
  induction m with
  | nil => simp [nmapGet, nmapInsert]
  | cons p rest ih =>
    by_cases h : p.1 == k
    · simp [nmapGet, nmapInsert, h]
    · simp only [nmapInsert]
      rw [if_neg (by simpa using h)]
      simpa [nmapGet, h] using ih

/-! ## C1 — Schema Binary Codec round trip -/

/-- Reading back an encoded string, given that the external UTF-8
decode undoes the encode and the byte length fits the `u32` prefix. -/
theorem readString_append (ext : Ext) (s : String) (rest : List Nat)
    (hinv : ext.utf8Dec (ext.utf8Enc s) = some s)
    (hlen : (ext.utf8Enc s).length < 2 ^ 32) :
    readString ext (encodeString ext s ++ rest) = .ok (s, rest) := by
  have h4 : (2 : Nat) ^ 32 = 256 ^ 4 := by norm_num
  rw [encodeString, List.append_assoc]
  rw [readString, readUIntLe_append 4 _ _ (by rw [← h4]; exact hlen)]
  simp [readBytes_append (ext.utf8Enc s) rest _ rfl, hinv, Bind.bind, Except.bind]

/-- Reading back an encoded bool flag. -/
theorem readBool_encode (b : Bool) (rest : List Nat) :
    readBool ((if b then 1 else 0) :: rest) = .ok (b, rest) := by
  cases b <;> simp [readBool, readUIntLe_one, Bind.bind, Except.bind]

/-- Reading back an encoded `SmallVecLen`. -/
theorem readSmallVecLen_encode (lt : SmallVecLen) (rest : List Nat) :
    readSmallVecLen (encodeSmallVecLen lt ++ rest) = .ok (lt, rest) := by
  cases lt <;>
    simp [readSmallVecLen, encodeSmallVecLen, readUIntLe_one, Bind.bind, Except.bind]

/-- Every fuel bound is positive. -/
theorem one_le_schemaTypeNeed (t : SchemaType) : 1 ≤ schemaTypeNeed t := by
  cases t <;> simp [schemaTypeNeed]

/-- Every fuel bound is positive. -/
theorem one_le_schemaNodeNeed (n : SchemaNode) : 1 ≤ schemaNodeNeed n := by
  cases n
  simp [schemaNodeNeed]

/-- Every fuel bound is positive. -/
theorem one_le_schemaTypeListNeed (ts : List SchemaType) :
    1 ≤ schemaTypeListNeed ts := by
  cases ts <;> simp [schemaTypeListNeed]

/-- Every fuel bound is positive. -/
theorem one_le_schemaNodeListNeed (ns : List SchemaNode) :
    1 ≤ schemaNodeListNeed ns := by
  cases ns <;> simp [schemaNodeListNeed]

/-- The four-part round-trip invariant of the schema binary codec,
proved by induction on the decoder's fuel: decoding the encoding of a
well-formed value (with enough fuel) returns the value and leaves the
trailing bytes untouched. -/
theorem schemaCodecRoundTrip (ext : Ext)
    (hinv : ∀ s, ext.utf8Dec (ext.utf8Enc s) = some s) : ∀ fuel : Nat,
    (∀ t rest, wfSchemaType ext t = true → schemaTypeNeed t ≤ fuel →
      deserializeSchemaTypeF ext fuel (encodeSchemaType ext t ++ rest) =
        .ok (t, rest)) ∧
    (∀ n rest, wfSchemaNode ext n = true → schemaNodeNeed n ≤ fuel →
      deserializeSchemaNodeF ext fuel (encodeSchemaNode ext n ++ rest) =
        .ok (n, rest)) ∧
    (∀ ts rest, wfSchemaTypeList ext ts = true → schemaTypeListNeed ts ≤ fuel →
      deserializeSchemaTypeListF ext fuel ts.length
        (encodeSchemaTypeList ext ts ++ rest) = .ok (ts, rest)) ∧
    (∀ ns rest, wfSchemaNodeList ext ns = true → schemaNodeListNeed ns ≤ fuel →
      deserializeSchemaNodeListF ext fuel ns.length
        (encodeSchemaNodeList ext ns ++ rest) = .ok (ns, rest)) := by
  intro fuel
  induction fuel with
  | zero =>
    refine ⟨?_, ?_, ?_, ?_⟩
    · intro t _ _ hf
      exact absurd hf (by have := one_le_schemaTypeNeed t; omega)
    · intro n _ _ hf
      exact absurd hf (by have := one_le_schemaNodeNeed n; omega)
    · intro ts _ _ hf
      exact absurd hf (by have := one_le_schemaTypeListNeed ts; omega)
    · intro ns _ _ hf
      exact absurd hf (by have := one_le_schemaNodeListNeed ns; omega)
  | succ fuel ih =>
    obtain ⟨ihT, ihN, ihTs, ihNs⟩ := ih
    have h2pow : (2 : Nat) ^ 64 = 256 ^ 8 := by norm_num
    refine ⟨?_, ?_, ?_, ?_⟩
    · intro t rest hwf hf
      cases t with
      | empty =>
        simp [encodeSchemaType, schemaTypeTag, deserializeSchemaTypeF,
          readUIntLe_append 2 0 rest (by norm_num), Bind.bind, Except.bind]
      | pubkey =>
        simp [encodeSchemaType, schemaTypeTag, deserializeSchemaTypeF,
          readUIntLe_append 2 1 rest (by norm_num), Bind.bind, Except.bind]
      | string =>
        simp [encodeSchemaType, schemaTypeTag, deserializeSchemaTypeF,
          readUIntLe_append 2 2 rest (by norm_num), Bind.bind, Except.bind]
      | i8 =>
        simp [encodeSchemaType, schemaTypeTag, deserializeSchemaTypeF,
          readUIntLe_append 2 3 rest (by norm_num), Bind.bind, Except.bind]
      | u8 =>
        simp [encodeSchemaType, schemaTypeTag, deserializeSchemaTypeF,
          readUIntLe_append 2 4 rest (by norm_num), Bind.bind, Except.bind]
      | i16 =>
        simp [encodeSchemaType, schemaTypeTag, deserializeSchemaTypeF,
          readUIntLe_append 2 5 rest (by norm_num), Bind.bind, Except.bind]
      | u16 =>
        simp [encodeSchemaType, schemaTypeTag, deserializeSchemaTypeF,
          readUIntLe_append 2 6 rest (by norm_num), Bind.bind, Except.bind]
      | i32 =>
        simp [encodeSchemaType, schemaTypeTag, deserializeSchemaTypeF,
          readUIntLe_append 2 7 rest (by norm_num), Bind.bind, Except.bind]
      | u32 =>
        simp [encodeSchemaType, schemaTypeTag, deserializeSchemaTypeF,
          readUIntLe_append 2 8 rest (by norm_num), Bind.bind, Except.bind]
      | i64 =>
        simp [encodeSchemaType, schemaTypeTag, deserializeSchemaTypeF,
          readUIntLe_append 2 9 rest (by norm_num), Bind.bind, Except.bind]
      | u64 =>
        simp [encodeSchemaType, schemaTypeTag, deserializeSchemaTypeF,
          readUIntLe_append 2 10 rest (by norm_num), Bind.bind, Except.bind]
      | i128 =>
        simp [encodeSchemaType, schemaTypeTag, deserializeSchemaTypeF,
          readUIntLe_append 2 11 rest (by norm_num), Bind.bind, Except.bind]
      | u128 =>
        simp [encodeSchemaType, schemaTypeTag, deserializeSchemaTypeF,
          readUIntLe_append 2 12 rest (by norm_num), Bind.bind, Except.bind]
      | f32 =>
        simp [encodeSchemaType, schemaTypeTag, deserializeSchemaTypeF,
          readUIntLe_append 2 13 rest (by norm_num), Bind.bind, Except.bind]
      | f64 =>
        simp [encodeSchemaType, schemaTypeTag, deserializeSchemaTypeF,
          readUIntLe_append 2 14 rest (by norm_num), Bind.bind, Except.bind]
      | bool =>
        simp [encodeSchemaType, schemaTypeTag, deserializeSchemaTypeF,
          readUIntLe_append 2 15 rest (by norm_num), Bind.bind, Except.bind]
      | remainingBytes =>
        simp [encodeSchemaType, schemaTypeTag, remainingBytesTag,
          deserializeSchemaTypeF, readUIntLe_append 2 23 rest (by norm_num),
          Bind.bind, Except.bind]
      | option t =>
        simp only [wfSchemaType] at hwf
        simp only [schemaTypeNeed] at hf
        have ht := ihT t rest hwf (by omega)
        simp [encodeSchemaType, deserializeSchemaTypeF, List.append_assoc,
          readUIntLe_append 2 16 _ (by norm_num), ht, Bind.bind, Except.bind]
      | vec t =>
        simp only [wfSchemaType] at hwf
        simp only [schemaTypeNeed] at hf
        have ht := ihT t rest hwf (by omega)
        simp [encodeSchemaType, deserializeSchemaTypeF, List.append_assoc,
          readUIntLe_append 2 19 _ (by norm_num), ht, Bind.bind, Except.bind]
      | array n t =>
        simp only [wfSchemaType, Bool.and_eq_true, decide_eq_true_eq] at hwf
        obtain ⟨hn, hwt⟩ := hwf
        simp only [schemaTypeNeed] at hf
        have h8 : n < 256 ^ 8 := by rw [← h2pow]; exact hn
        have ht := ihT t rest hwt (by omega)
        simp [encodeSchemaType, deserializeSchemaTypeF, List.append_assoc,
          readUIntLe_append 2 17 _ (by norm_num), readUIntLe_append 8 n _ h8,
          ht, Bind.bind, Except.bind]
      | tuple ts =>
        simp only [wfSchemaType, Bool.and_eq_true, decide_eq_true_eq] at hwf
        obtain ⟨hn, hwts⟩ := hwf
        simp only [schemaTypeNeed] at hf
        have h8 : ts.length < 256 ^ 8 := by rw [← h2pow]; exact hn
        have hts := ihTs ts rest hwts (by omega)
        simp [encodeSchemaType, deserializeSchemaTypeF, List.append_assoc,
          readUIntLe_append 2 18 _ (by norm_num),
          readUIntLe_append 8 ts.length _ h8, hts, Bind.bind, Except.bind]
      | struct ns =>
        simp only [wfSchemaType, Bool.and_eq_true, decide_eq_true_eq] at hwf
        obtain ⟨hn, hwns⟩ := hwf
        simp only [schemaTypeNeed] at hf
        have h8 : ns.length < 256 ^ 8 := by rw [← h2pow]; exact hn
        have hns := ihNs ns rest hwns (by omega)
        simp [encodeSchemaType, deserializeSchemaTypeF, List.append_assoc,
          readUIntLe_append 2 20 _ (by norm_num),
          readUIntLe_append 8 ns.length _ h8, hns, Bind.bind, Except.bind]
      | enum ns =>
        simp only [wfSchemaType, Bool.and_eq_true, decide_eq_true_eq] at hwf
        obtain ⟨hn, hwns⟩ := hwf
        simp only [schemaTypeNeed] at hf
        have h8 : ns.length < 256 ^ 8 := by rw [← h2pow]; exact hn
        have hns := ihNs ns rest hwns (by omega)
        simp [encodeSchemaType, deserializeSchemaTypeF, List.append_assoc,
          readUIntLe_append 2 21 _ (by norm_num),
          readUIntLe_append 8 ns.length _ h8, hns, Bind.bind, Except.bind]
      | smallVec lt t =>
        simp only [wfSchemaType] at hwf
        simp only [schemaTypeNeed] at hf
        have ht := ihT t rest hwf (by omega)
        simp [encodeSchemaType, deserializeSchemaTypeF, List.append_assoc,
          readUIntLe_append 2 22 _ (by norm_num), readSmallVecLen_encode,
          ht, Bind.bind, Except.bind]
    · intro n rest hwf hf
      cases n with
      | mk name t hidden =>
        simp only [wfSchemaNode, Bool.and_eq_true, decide_eq_true_eq] at hwf
        obtain ⟨hlen, hwt⟩ := hwf
        simp only [schemaNodeNeed] at hf
        have hstr := readString_append ext name
          (encodeSchemaType ext t ++ ((if hidden then 1 else 0) :: rest))
          (hinv name) hlen
        have ht := ihT t ((if hidden then 1 else 0) :: rest) hwt (by omega)
        simp [encodeSchemaNode, deserializeSchemaNodeF, List.append_assoc,
          hstr, ht, readBool_encode, Bind.bind, Except.bind]
    · intro ts rest hwf hf
      cases ts with
      | nil => simp [encodeSchemaTypeList, deserializeSchemaTypeListF]
      | cons t ts' =>
        simp only [wfSchemaTypeList, Bool.and_eq_true] at hwf
        obtain ⟨hwt, hwts⟩ := hwf
        simp only [schemaTypeListNeed] at hf
        have hmax := Nat.max_le.mp
          (show max (schemaTypeNeed t) (schemaTypeListNeed ts') ≤ fuel by omega)
        have ht := ihT t (encodeSchemaTypeList ext ts' ++ rest) hwt hmax.1
        have hts := ihTs ts' rest hwts hmax.2
        simp [encodeSchemaTypeList, deserializeSchemaTypeListF,
          List.append_assoc, List.length_cons, ht, hts, Bind.bind, Except.bind]
    · intro ns rest hwf hf
      cases ns with
      | nil => simp [encodeSchemaNodeList, deserializeSchemaNodeListF]
      | cons n ns' =>
        simp only [wfSchemaNodeList, Bool.and_eq_true] at hwf
        obtain ⟨hwn, hwns⟩ := hwf
        simp only [schemaNodeListNeed] at hf
        have hmax := Nat.max_le.mp
          (show max (schemaNodeNeed n) (schemaNodeListNeed ns') ≤ fuel by omega)
        have hn := ihN n (encodeSchemaNodeList ext ns' ++ rest) hwn hmax.1
        have hns := ihNs ns' rest hwns hmax.2
        simp [encodeSchemaNodeList, deserializeSchemaNodeListF,
          List.append_assoc, List.length_cons, hn, hns, Bind.bind, Except.bind]

/-- C1: the Schema Binary Codec round-trips every well-formed
SchemaType value — every constructor of the §3 grammar, RemainingBytes
included — with trailing bytes preserved: decoding the 2-byte-tag
serialization of `t` yields `t` exactly.  Well-formedness
(`wfSchemaType`) states only what the Rust types already guarantee
(lengths fit `usize` / `u32`); the fuel is the embedding's recursion
budget, satisfied by `schemaTypeNeed t`. -/
theorem c1_schema_codec_roundtrip (ext : Ext)
    (hinv : ∀ s, ext.utf8Dec (ext.utf8Enc s) = some s)
    (t : SchemaType) (hwf : wfSchemaType ext t = true)
    (fuel : Nat) (hfuel : schemaTypeNeed t ≤ fuel) (rest : List Nat) :
    deserializeSchemaTypeF ext fuel (encodeSchemaType ext t ++ rest) =
      .ok (t, rest) :=
  (schemaCodecRoundTrip ext hinv fuel).1 t rest hwf hfuel

/-- Witness for C1 on a value exercising all 24 constructors,
including RemainingBytes, with a 2-byte trailing tail. -/
theorem c1_schema_codec_roundtrip_witness :
    wfSchemaType extChar schemaAllCtors = true ∧
      schemaTypeNeed schemaAllCtors ≤ 64 ∧
      deserializeSchemaTypeF extChar 64
          (encodeSchemaType extChar schemaAllCtors ++ [1, 2]) =
        .ok (schemaAllCtors, [1, 2]) :=
  ⟨by decide, by decide,
    c1_schema_codec_roundtrip extChar extChar_utf8_inverse schemaAllCtors
      (by decide) 64 (by decide) [1, 2]⟩

end ReverseIdl
